import Mathlib

/-!
Verification of the budget reconciliation engine of the budgetapp repository.

The definitions below are a shallow embedding of the backend service in
BE/src/services/budgetService.js.  All monetary quantities are carried in
integer minor units (cents), mirroring the _cents columns of the store and
the toDbAmount conversion (Math.round(amount * 100)) that the service applies
to every monetary input before any arithmetic; payload fields therefore carry
the already-converted integer value.  Record identifiers are opaque in the
source (uuids); they are modelled as natural numbers.  Calendar dates and
month keys are ISO strings (YYYY-MM-DD and YYYY-MM); the source compares
dates by the timestamp of the date at UTC midnight, which for well-formed
ISO date strings coincides with lexicographic string comparison, so the
embedding compares the strings lexicographically.  The embedding assumes a
UTC runtime, under which toISOString of a Date built from calendar
components preserves the calendar day.
-/

/-- Boolean lexicographic comparison of character lists, the order underlying
the ISO date and month-key strings of the service.  For well-formed ISO
strings this agrees with the numeric timestamp comparison performed by
isWithinRange in the source. -/
def charListLe : List Char → List Char → Bool
  | [], _ => true
  | _ :: _, [] => false
  | c :: cs, d :: ds => if c < d then true else if d < c then false else charListLe cs ds

/-- Lexicographic comparison of strings, used for date and month-key order. -/
def strLe (a b : String) : Bool := charListLe a.data b.data

/-- Splits a character list at dash characters, the split used on month
keys; mirrors String.split on the dash separator. -/
def splitOnDash : List Char → List (List Char)
  | [] => [[]]
  | c :: cs =>
    let rest := splitOnDash cs
    if c = '-' then [] :: rest
    else
      match rest with
      | r :: rs => (c :: r) :: rs
      | [] => [[c]]

/-- Numeric value of a decimal digit character, none for any other
character. -/
def digitVal? (c : Char) : Option Nat :=
  if c = '0' then some 0
  else if c = '1' then some 1
  else if c = '2' then some 2
  else if c = '3' then some 3
  else if c = '4' then some 4
  else if c = '5' then some 5
  else if c = '6' then some 6
  else if c = '7' then some 7
  else if c = '8' then some 8
  else if c = '9' then some 9
  else none

/-- Parses a non-empty decimal digit string, none otherwise; the numeric
conversion applied to the components of a month key. -/
def digitsToNat? : List Char → Option Nat
  | [] => none
  | l => l.foldl (fun acc c =>
      match acc, digitVal? c with
      | some n, some d => some (n * 10 + d)
      | _, _ => none) (some 0)

/-- Decimal digit character of a value below ten. -/
def digitChar (n : Nat) : Char :=
  if n = 0 then '0'
  else if n = 1 then '1'
  else if n = 2 then '2'
  else if n = 3 then '3'
  else if n = 4 then '4'
  else if n = 5 then '5'
  else if n = 6 then '6'
  else if n = 7 then '7'
  else if n = 8 then '8'
  else '9'

/-- Decimal rendering with an explicit recursion bound, so that the
definition reduces by structural recursion. -/
def natDigitsAux : Nat → Nat → List Char
  | 0, _ => []
  | fuel + 1, n => if n < 10 then [digitChar n] else natDigitsAux fuel (n / 10) ++ [digitChar (n % 10)]

/-- Decimal rendering of a natural number, the digits of the ISO date
components. -/
def natDigits (n : Nat) : List Char := natDigitsAux (n + 1) n

/-- Gregorian leap-year test, as implemented by the JavaScript Date object. -/
def isLeapYear (y : Nat) : Bool := y % 4 == 0 && (y % 100 != 0 || y % 400 == 0)

/-- Number of days of a calendar month (1-12), as computed by the JavaScript
Date object for day 0 of the following month. -/
def daysInMonth (y m : Nat) : Nat :=
  if m = 2 then (if isLeapYear y then 29 else 28)
  else if m = 4 ∨ m = 6 ∨ m = 9 ∨ m = 11 then 30
  else 31

/-- Left-pads a number to two digits, as in an ISO date. -/
def pad2 (n : Nat) : List Char := if n < 10 then '0' :: natDigits n else natDigits n

/-- Left-pads a number to four digits, as in the year part of toISOString. -/
def pad4 (n : Nat) : List Char :=
  if n < 10 then '0' :: '0' :: '0' :: natDigits n
  else if n < 100 then '0' :: '0' :: natDigits n
  else if n < 1000 then '0' :: natDigits n
  else natDigits n

/-- Embedding of endOfMonth: splits a YYYY-MM month key, rejects missing or
zero components (the JavaScript falsiness check on the parsed numbers), and
renders the last day of that calendar month.  A month number above 12 rolls
into the following years exactly as the Date constructor normalises it. -/
def endOfMonth (month : String) : String :=
  if month = "" then ""
  else
    match splitOnDash month.data with
    | y :: m :: _ =>
      match digitsToNat? y, digitsToNat? m with
      | some yn, some mn =>
        if yn = 0 ∨ mn = 0 then ""
        else
          let yr := yn + (mn - 1) / 12
          let mo := (mn - 1) % 12 + 1
          String.mk (pad4 yr ++ '-' :: pad2 mo ++ '-' :: pad2 (daysInMonth yr mo))
      | _, _ => ""
    | _ => ""

/-- Embedding of isWithinRange: an empty date never matches; an empty bound
imposes no constraint; otherwise the date must lie between the bounds,
inclusive on both ends.  The source compares UTC-midnight timestamps of the
normalised date strings, which on well-formed ISO dates is the lexicographic
comparison used here. -/
def isWithinRange (dateValue start stop : String) : Bool :=
  if dateValue = "" then false
  else (start == "" || strLe start dateValue) && (stop == "" || strLe dateValue stop)

/-- Monthly plan row of the monthly_plans table, with normalizeDate applied
to the cycle bounds as in mapPlanRow: an absent bound is the empty string. -/
structure MonthlyPlan where
  id : Nat
  month : String
  cycleStart : String
  cycleEnd : String
  locked : Bool
  currency : String
  savingsTarget : Int
deriving DecidableEq

/-- Budget row of the monthly_plan_budgets table, keyed by (plan_id,
group_id), holding planned_cents and actual_cents. -/
structure BudgetRow where
  planId : Nat
  groupId : Nat
  planned : Int
  actual : Int
deriving DecidableEq

/-- Cash book row of the cash_books table; balance carries balance_cents. -/
structure CashBook where
  id : Nat
  name : String
  bookType : String
  accountNumber : String
  balance : Int
  currency : String
  notes : String
deriving DecidableEq

/-- Expense row of the expenses table; amountCents carries amount_cents and
planMonthKey the persisted plan_month_key (none models SQL NULL). -/
structure Expense where
  id : Nat
  label : String
  amountCents : Int
  entryType : String
  groupId : Nat
  cashBookId : Nat
  txnDate : String
  note : String
  tags : List String
  planMonthKey : Option String
deriving DecidableEq

/-- The durable state of the ledger store: the four record sets, plus the
counters standing in for the identifier generator of the database. -/
structure DB where
  plans : List MonthlyPlan
  budgets : List BudgetRow
  cashBooks : List CashBook
  expenses : List Expense
  nextExpenseId : Nat
  nextPlanId : Nat
  nextCashBookId : Nat
deriving DecidableEq

/-- Descending month-key order on plans, the ORDER BY month_key DESC of
fetchPlans. -/
def planMonthGe (a b : MonthlyPlan) : Prop := strLe b.month a.month = true

instance : DecidableRel planMonthGe := fun _ _ => inferInstanceAs (Decidable (_ = true))

/-- Embedding of fetchPlans: the plan listing the service works on, ordered
by descending month key.  Budget rows are attached to each plan in the
source, but the resolution logic reads only the plan fields, so the
embedding returns the ordered plan rows. -/
def fetchPlans (s : DB) : List MonthlyPlan := s.plans.insertionSort planMonthGe

/-- Result of plan resolution: the selected plan and the month key to
persist, both absent when no plan could be determined. -/
structure ResolvedPlan where
  plan : Option MonthlyPlan
  monthKey : Option String
deriving DecidableEq

/-- Default cycle start of a plan: the explicit cycle_start, else the first
day of its month key. -/
def planCycleStartOr (p : MonthlyPlan) : String :=
  if p.cycleStart = "" then p.month ++ "-01" else p.cycleStart

/-- Default cycle end of a plan: the explicit cycle_end, else the last day
of its month key. -/
def planCycleEndOr (p : MonthlyPlan) : String :=
  if p.cycleEnd = "" then endOfMonth p.month else p.cycleEnd

/-- Whether a plan's cycle window contains a date, with the defaulted
bounds, as in the window scans of findPlanForExpense. -/
def planWindowContains (p : MonthlyPlan) (d : String) : Bool :=
  isWithinRange d (planCycleStartOr p) (planCycleEndOr p)

/-- Fallback half of findPlanForExpense, reached when no usable hint is
present: the first plan whose cycle window contains the date, else the
first plan of the listing. -/
def findPlanFallback (plans : List MonthlyPlan) (expenseDate : String) : ResolvedPlan :=
  match plans.find? (fun p => planWindowContains p expenseDate) with
  | some matchingPlan => ⟨some matchingPlan, some matchingPlan.month⟩
  | none => ⟨plans.head?, plans.head?.map (·.month)⟩

/-- Embedding of findPlanForExpense.  With no plans the hint is returned
as the month key.  A hint that names an existing plan's month key selects
that plan; the source computes a window-match flag for it, but both the
matching and the non-matching branch return the hint plan, so the hint wins
unconditionally.  Otherwise resolution falls back to the window scan.  The
source fetches the plan listing itself; the embedding receives the result
of fetchPlans as an argument. -/
def findPlanForExpense (plans : List MonthlyPlan) (expenseDate : String)
    (planMonthHint : Option String) : ResolvedPlan :=
  if plans.isEmpty then ⟨none, planMonthHint⟩
  else
    match planMonthHint with
    | some hint =>
      match plans.find? (fun p => p.month = hint) with
      | some hintPlan => ⟨some hintPlan, some hintPlan.month⟩
      | none => findPlanFallback plans expenseDate
    | none => findPlanFallback plans expenseDate

/-- Upsert of the plan-actual delta, the INSERT ... ON CONFLICT of
adjustPlanActuals: an existing (plan, group) row gets actual_cents set to
GREATEST(actual_cents + delta, 0); otherwise a new row is inserted with
planned 0 and actual GREATEST(delta, 0). -/
def upsertBudgetActual (rows : List BudgetRow) (planId groupId : Nat) (delta : Int) :
    List BudgetRow :=
  if rows.any (fun r => r.planId = planId && r.groupId = groupId) then
    rows.map (fun r =>
      if r.planId = planId && r.groupId = groupId then
        { r with actual := max (r.actual + delta) 0 }
      else r)
  else rows ++ [⟨planId, groupId, 0, max delta 0⟩]

/-- Budget-row part of adjustPlanActuals: a zero delta or an absent month
key is a no-op (the early return of the source); otherwise the plan with
the given month key is looked up and, when present, its (plan, group)
budget row receives the clamped delta. -/
def adjustedBudgets (plans : List MonthlyPlan) (rows : List BudgetRow) (groupId : Nat)
    (deltaCents : Int) (planMonthKey : Option String) : List BudgetRow :=
  if deltaCents = 0 then rows
  else
    match planMonthKey with
    | none => rows
    | some key =>
      match plans.find? (fun p => p.month = key) with
      | none => rows
      | some p => upsertBudgetActual rows p.id groupId deltaCents

/-- Embedding of adjustPlanActuals, acting on the state: only the budget
rows change. -/
def adjustPlanActuals (s : DB) (groupId : Nat) (deltaCents : Int)
    (planMonthKey : Option String) : DB :=
  { s with budgets := adjustedBudgets s.plans s.budgets groupId deltaCents planMonthKey }

/-- Per-book part of adjustCashBookBalance: the UPDATE decreases
balance_cents of the addressed cash book by the delta. -/
def adjustOneBook (cashBookId : Nat) (deltaCents : Int) (b : CashBook) : CashBook :=
  if b.id = cashBookId then { b with balance := b.balance - deltaCents } else b

/-- Cash-book part of adjustCashBookBalance: a zero delta is a no-op (the
early return of the source); otherwise the addressed book is debited. -/
def adjustedBooks (books : List CashBook) (cashBookId : Nat) (deltaCents : Int) :
    List CashBook :=
  if deltaCents = 0 then books else books.map (adjustOneBook cashBookId deltaCents)

/-- Embedding of adjustCashBookBalance, acting on the state: only the cash
books change. -/
def adjustCashBookBalance (s : DB) (cashBookId : Nat) (deltaCents : Int) : DB :=
  { s with cashBooks := adjustedBooks s.cashBooks cashBookId deltaCents }

/-- Input of createExpense.  The amount field carries toDbAmount of the
submitted amount; entryType, note and planMonth are optional exactly as the
payload fields are in the source. -/
structure CreatePayload where
  label : String
  amountCents : Int
  entryType : Option String
  groupId : Nat
  cashBookId : Nat
  date : String
  note : Option String
  tags : List String
  planMonth : Option String
deriving DecidableEq

/-- Embedding of createExpense: resolves the owning plan from the date and
the optional hint, inserts the expense row with the resolved month key,
applies the plan-actual delta using the resolved plan's month (falling back
to the month key), and applies the cash-book delta.  The source performs no
validation of the payload. -/
def createExpense (s : DB) (p : CreatePayload) : DB × Expense :=
  let r := findPlanForExpense (fetchPlans s) p.date p.planMonth
  let e : Expense :=
    { id := s.nextExpenseId
      label := p.label
      amountCents := p.amountCents
      entryType := p.entryType.getD "expense"
      groupId := p.groupId
      cashBookId := p.cashBookId
      txnDate := p.date
      note := p.note.getD ""
      tags := p.tags
      planMonthKey := r.monthKey }
  let s1 := { s with expenses := s.expenses ++ [e], nextExpenseId := s.nextExpenseId + 1 }
  let actualKey := match r.plan with | some pl => some pl.month | none => r.monthKey
  let s2 := adjustPlanActuals s1 p.groupId p.amountCents actualKey
  let s3 := adjustCashBookBalance s2 p.cashBookId p.amountCents
  (s3, e)

/-- Patch of updateExpense: every field optional, an absent field keeping
the previous value, as in the merge expressions of the source. -/
structure UpdatePayload where
  label : Option String
  amountCents : Option Int
  groupId : Option Nat
  cashBookId : Option Nat
  date : Option String
  note : Option String
  tags : Option (List String)
  planMonth : Option String
deriving DecidableEq

/-- Embedding of updateExpense: fails when the id matches no expense row;
otherwise merges the patch over the previous row, re-resolves the owning
plan from the merged date and the hint (patch plan month, else the
previously persisted one), persists the merged row, then reverses the
previous plan-actual and cash-book deltas and applies the new ones.  The
source throws on an empty id string before the lookup; ids are opaque
numbers here, so only the not-found path is representable. -/
def updateExpense (s : DB) (id : Nat) (p : UpdatePayload) : Except String (DB × Expense) :=
  match s.expenses.find? (fun e => e.id = id) with
  | none => Except.error "Expense not found"
  | some previous =>
    let amountCents := p.amountCents.getD previous.amountCents
    let planHint := p.planMonth <|> previous.planMonthKey
    let newDate := p.date.getD previous.txnDate
    let r := findPlanForExpense (fetchPlans s) newDate planHint
    let newKey := match r.plan with | some pl => some pl.month | none => r.monthKey
    let updated : Expense :=
      { id := previous.id
        label := p.label.getD previous.label
        amountCents := amountCents
        entryType := previous.entryType
        groupId := p.groupId.getD previous.groupId
        cashBookId := p.cashBookId.getD previous.cashBookId
        txnDate := newDate
        note := p.note.getD previous.note
        tags := p.tags.getD previous.tags
        planMonthKey := newKey }
    let s1 := { s with expenses := s.expenses.map (fun e => if e.id = id then updated else e) }
    let s2 := adjustPlanActuals s1 previous.groupId (-previous.amountCents) previous.planMonthKey
    let s3 := adjustPlanActuals s2 updated.groupId amountCents updated.planMonthKey
    let s4 := adjustCashBookBalance s3 previous.cashBookId (-previous.amountCents)
    let s5 := adjustCashBookBalance s4 updated.cashBookId amountCents
    Except.ok (s5, updated)

/-- Embedding of deleteExpense: fails when the id matches no expense row;
otherwise removes the row and reverses its plan-actual and cash-book
deltas using its persisted amount, group and plan month key. -/
def deleteExpense (s : DB) (id : Nat) : Except String (DB × Expense) :=
  match s.expenses.find? (fun e => e.id = id) with
  | none => Except.error "Expense not found"
  | some removed =>
    let s1 := { s with expenses := s.expenses.filter (fun e => e.id != id) }
    let s2 := adjustPlanActuals s1 removed.groupId (-removed.amountCents) removed.planMonthKey
    let s3 := adjustCashBookBalance s2 removed.cashBookId (-removed.amountCents)
    Except.ok (s3, removed)

/-- Budget entry of a saveMonthlyPlan payload, with planned and actual
already converted by toDbAmount and defaulted to zero when absent. -/
structure BudgetPayload where
  groupId : Nat
  planned : Int
  actual : Int
deriving DecidableEq

/-- Payload of saveMonthlyPlan; an empty cycle bound or currency models the
falsy values the source replaces with NULL and the INR default. -/
structure PlanPayload where
  id : Option Nat
  month : String
  cycleStart : String
  cycleEnd : String
  locked : Bool
  currency : String
  savingsTarget : Int
  budgets : List BudgetPayload
deriving DecidableEq

/-- Upsert of a payload budget entry, the INSERT ... ON CONFLICT of
saveMonthlyPlan: an existing (plan, group) row gets only planned_cents
replaced; otherwise a new row is inserted with the entry's planned and
actual values. -/
def upsertBudgetPlanned (rows : List BudgetRow) (planId : Nat) (b : BudgetPayload) :
    List BudgetRow :=
  if rows.any (fun r => r.planId = planId && r.groupId = b.groupId) then
    rows.map (fun r =>
      if r.planId = planId && r.groupId = b.groupId then { r with planned := b.planned } else r)
  else rows ++ [⟨planId, b.groupId, b.planned, b.actual⟩]

/-- Embedding of saveMonthlyPlan: requires a month key; updates the plan
row when an id is supplied, else inserts a fresh one; replaces each listed
budget entry's actual by the existing row's actual when one exists; upserts
the listed entries; and deletes every budget row of the plan whose group is
not listed in the payload (the source's two DELETE branches collapse to the
single filter below). -/
def saveMonthlyPlan (s : DB) (p : PlanPayload) : Except String DB :=
  if p.month = "" then Except.error "Plan month is required"
  else
    let planFields : Nat → MonthlyPlan := fun pid =>
      { id := pid
        month := p.month
        cycleStart := p.cycleStart
        cycleEnd := p.cycleEnd
        locked := p.locked
        currency := if p.currency = "" then "INR" else p.currency
        savingsTarget := p.savingsTarget }
    let step : DB × Nat :=
      match p.id with
      | some pid =>
        ({ s with plans := s.plans.map (fun pl => if pl.id = pid then planFields pid else pl) },
          pid)
      | none =>
        ({ s with
            plans := s.plans ++ [planFields s.nextPlanId]
            nextPlanId := s.nextPlanId + 1 },
          s.nextPlanId)
    let s1 := step.1
    let planId := step.2
    let existingActual : Nat → Option Int := fun g =>
      (s1.budgets.find? (fun r => r.planId = planId && r.groupId = g)).map (·.actual)
    let normalized : List BudgetPayload :=
      p.budgets.map (fun b => { b with actual := (existingActual b.groupId).getD b.actual })
    let s2 :=
      { s1 with budgets := normalized.foldl (fun rows b => upsertBudgetPlanned rows planId b) s1.budgets }
    let keep := normalized.map (·.groupId)
    let s3 :=
      { s2 with budgets := s2.budgets.filter (fun r => r.planId != planId || keep.contains r.groupId) }
    Except.ok s3

/-- Payload of saveCashBook, with the balance already converted by
toDbAmount; optional fields default exactly as in the source. -/
structure CashBookPayload where
  id : Option Nat
  name : String
  bookType : Option String
  accountNumber : Option String
  balanceCents : Int
  currency : Option String
  notes : Option String
deriving DecidableEq

/-- Embedding of saveCashBook: requires a name; with an id, overwrites the
addressed row's fields including balance_cents, which thereby becomes a new
opening value; without one, inserts a fresh row.  An unknown id makes the
source crash on the empty UPDATE result with no state change, modelled as
an error. -/
def saveCashBook (s : DB) (p : CashBookPayload) : Except String (DB × CashBook) :=
  if p.name = "" then Except.error "Cash book name is required"
  else
    let normalized : Nat → CashBook := fun bid =>
      { id := bid
        name := p.name
        bookType := p.bookType.getD "bank"
        accountNumber := p.accountNumber.getD ""
        balance := p.balanceCents
        currency := p.currency.getD "INR"
        notes := p.notes.getD "" }
    match p.id with
    | some bid =>
      let s1 :=
        { s with cashBooks := s.cashBooks.map (fun b => if b.id = bid then normalized bid else b) }
      match s1.cashBooks.find? (fun b => b.id = bid) with
      | some b => Except.ok (s1, b)
      | none => Except.error "Cash book not found"
    | none =>
      let b := normalized s.nextCashBookId
      Except.ok
        ({ s with cashBooks := s.cashBooks ++ [b], nextCashBookId := s.nextCashBookId + 1 }, b)

/-- Actual value of the (plan, group) row within a budget-row list, zero
when no row exists. -/
def getActualRows (rows : List BudgetRow) (planId groupId : Nat) : Int :=
  ((rows.find? (fun r => r.planId = planId && r.groupId = groupId)).map (·.actual)).getD 0

/-- Actual value of the (plan, group) budget row, zero when no row exists;
the quantity the invariants of the specification speak about. -/
def getActual (s : DB) (planId groupId : Nat) : Int := getActualRows s.budgets planId groupId

/-- Identifier of the plan that adjustPlanActuals resolves a month key to:
the first stored plan carrying that month key. -/
def lookupPlanId (plans : List MonthlyPlan) (planMonthKey : Option String) : Option Nat :=
  match planMonthKey with
  | none => none
  | some key => (plans.find? (fun p => p.month = key)).map (·.id)

/-- Contribution of one expense to the actual of a (month key, group)
pair: its amount when it is attributed to that pair, zero otherwise. -/
def expenseContrib (monthKey : String) (groupId : Nat) (e : Expense) : Int :=
  if e.planMonthKey = some monthKey ∧ e.groupId = groupId then e.amountCents else 0

/-- Sum of a per-expense integer quantity over an expense list. -/
def expSum (es : List Expense) (f : Expense → Int) : Int := (es.map f).sum

/-- Signed sum of the amounts of all expenses attributed to a month key and
group, the right-hand side of the plan-actual invariant. -/
def sumActual (s : DB) (monthKey : String) (groupId : Nat) : Int :=
  expSum s.expenses (expenseContrib monthKey groupId)

/-- Contribution of one expense to the outstanding total of a cash book. -/
def bookContrib (bookId : Nat) (e : Expense) : Int :=
  if e.cashBookId = bookId then e.amountCents else 0

/-- Signed sum of the amounts of all expenses currently attributed to a
cash book, the quantity subtracted from the opening value in the cash-book
invariant. -/
def owes (s : DB) (bookId : Nat) : Int := expSum s.expenses (bookContrib bookId)

/-- Structural well-formedness guaranteed by the database constraints:
primary-key uniqueness of expense ids and plan ids, freshness of the id
counter, and uniqueness of the month key, the unique business key of a
plan. -/
def WF (s : DB) : Prop :=
  (s.expenses.map (·.id)).Nodup ∧
  (∀ e ∈ s.expenses, e.id < s.nextExpenseId) ∧
  (s.plans.map (·.id)).Nodup ∧
  (s.plans.map (·.month)).Nodup

/-- Reconciliation invariant on plan actuals: every stored amount is
non-negative (amounts enter as positive outflows), and for every stored
plan and every group the budget-row actual equals the signed sum of the
amounts attributed to that plan's month and that group. -/
def InvActuals (s : DB) : Prop :=
  (∀ e ∈ s.expenses, 0 ≤ e.amountCents) ∧
  ∀ p ∈ s.plans, ∀ g : Nat, getActual s p.id g = sumActual s p.month g

/-- Cash-book invariant relative to an assignment of opening values: every
stored book's balance is its opening value minus the signed sum of the
expenses currently attributed to it. -/
def CashInv (s : DB) (opening : Nat → Int) : Prop :=
  ∀ b ∈ s.cashBooks, b.balance = opening b.id - owes s b.id

/-- One write operation of the reconciliation engine. -/
inductive Op where
  | create (p : CreatePayload)
  | update (id : Nat) (p : UpdatePayload)
  | delete (id : Nat)

/-- Applies one operation; a failing operation leaves the state unchanged,
the ROLLBACK of the surrounding transaction. -/
def applyOp (s : DB) : Op → DB
  | Op.create p => (createExpense s p).1
  | Op.update id p =>
    match updateExpense s id p with
    | Except.ok r => r.1
    | Except.error _ => s
  | Op.delete id =>
    match deleteExpense s id with
    | Except.ok r => r.1
    | Except.error _ => s

/-- Applies a sequence of operations in order. -/
def runOps (s : DB) (ops : List Op) : DB := ops.foldl applyOp s

/-- Every amount submitted by an operation is non-negative, the input
domain the specification prescribes for the engine (amounts are positive
outflow magnitudes). -/
def opNonneg : Op → Prop
  | Op.create p => 0 ≤ p.amountCents
  | Op.update _ p => ∀ a : Int, p.amountCents = some a → 0 ≤ a
  | Op.delete _ => True

/-- Expense row produced by createExpense, with the resolved month key
persisted; a restatement of the insert of createExpense used to phrase the
characterisation lemmas. -/
def createdExpense (s : DB) (p : CreatePayload) : Expense :=
  { id := s.nextExpenseId
    label := p.label
    amountCents := p.amountCents
    entryType := p.entryType.getD "expense"
    groupId := p.groupId
    cashBookId := p.cashBookId
    txnDate := p.date
    note := p.note.getD ""
    tags := p.tags
    planMonthKey := (findPlanForExpense (fetchPlans s) p.date p.planMonth).monthKey }

/-- State produced by createExpense: the expense row appended, the
plan-actual delta and the cash-book delta applied. -/
def createdState (s : DB) (p : CreatePayload) : DB :=
  { s with
    expenses := s.expenses ++ [createdExpense s p]
    nextExpenseId := s.nextExpenseId + 1
    budgets := adjustedBudgets s.plans s.budgets p.groupId p.amountCents
      (createdExpense s p).planMonthKey
    cashBooks := adjustedBooks s.cashBooks p.cashBookId p.amountCents }

/-- Date used by updateExpense for re-resolution: the patch date, else the
previous row's date. -/
def updateDate (p : UpdatePayload) (prev : Expense) : String := p.date.getD prev.txnDate

/-- Plan hint used by updateExpense: the patch plan month, else the
previously persisted plan month key. -/
def updateHint (p : UpdatePayload) (prev : Expense) : Option String :=
  p.planMonth <|> prev.planMonthKey

/-- Merged expense row persisted by updateExpense: patch fields over the
previous row, with the re-resolved month key. -/
def mergedExpense (s : DB) (p : UpdatePayload) (prev : Expense) : Expense :=
  { id := prev.id
    label := p.label.getD prev.label
    amountCents := p.amountCents.getD prev.amountCents
    entryType := prev.entryType
    groupId := p.groupId.getD prev.groupId
    cashBookId := p.cashBookId.getD prev.cashBookId
    txnDate := updateDate p prev
    note := p.note.getD prev.note
    tags := p.tags.getD prev.tags
    planMonthKey :=
      (findPlanForExpense (fetchPlans s) (updateDate p prev) (updateHint p prev)).monthKey }

/-- State produced by a successful updateExpense: the merged row persisted,
the previous deltas reversed and the new deltas applied. -/
def updatedState (s : DB) (id : Nat) (p : UpdatePayload) (prev : Expense) : DB :=
  { s with
    expenses := s.expenses.map (fun e => if e.id = id then mergedExpense s p prev else e)
    budgets := adjustedBudgets s.plans
      (adjustedBudgets s.plans s.budgets prev.groupId (-prev.amountCents) prev.planMonthKey)
      (mergedExpense s p prev).groupId (mergedExpense s p prev).amountCents
      (mergedExpense s p prev).planMonthKey
    cashBooks := adjustedBooks
      (adjustedBooks s.cashBooks prev.cashBookId (-prev.amountCents))
      (mergedExpense s p prev).cashBookId (mergedExpense s p prev).amountCents }

/-- State produced by a successful deleteExpense: the row removed and its
deltas reversed. -/
def deletedState (s : DB) (id : Nat) (rem : Expense) : DB :=
  { s with
    expenses := s.expenses.filter (fun e => e.id != id)
    budgets := adjustedBudgets s.plans s.budgets rem.groupId (-rem.amountCents) rem.planMonthKey
    cashBooks := adjustedBooks s.cashBooks rem.cashBookId (-rem.amountCents) }

/-- Patch that re-submits an expense's own stored fields, with a possibly
different amount; the payload of an update that changes nothing but
(optionally) the amount. -/
def selfPatch (e : Expense) (amountCents : Int) : UpdatePayload :=
  { label := some e.label
    amountCents := some amountCents
    groupId := some e.groupId
    cashBookId := some e.cashBookId
    date := some e.txnDate
    note := some e.note
    tags := some e.tags
    planMonth := e.planMonthKey }

/-! Concrete fixtures used to evaluate the theorems on closed inputs. -/

/-- A September 2024 plan with the default calendar-month cycle window. -/
def exPlan : MonthlyPlan := ⟨1, "2024-09", "", "", false, "INR", 0⟩

/-- An August 2024 plan with the default calendar-month cycle window. -/
def exPlan2 : MonthlyPlan := ⟨2, "2024-08", "", "", false, "INR", 0⟩

/-- A cash book with an opening balance of 100.00. -/
def exBook : CashBook := ⟨1, "Main account", "bank", "", 10000, "INR", ""⟩

/-- A store with one plan, one cash book and no expenses. -/
def exDB : DB := ⟨[exPlan], [], [exBook], [], 10, 3, 2⟩

/-- A store with two plans, one cash book and no expenses. -/
def exDB2 : DB := ⟨[exPlan, exPlan2], [], [exBook], [], 10, 3, 2⟩

/-- A valid createExpense payload dated inside the September plan. -/
def exPay : CreatePayload := ⟨"Soccer gear", 2550, none, 7, 1, "2024-09-05", none, [], none⟩

/-- The September expense row as persisted from exPay. -/
def exExp : Expense := ⟨10, "Soccer gear", 2550, "expense", 7, 1, "2024-09-05", "", [],
  some "2024-09"⟩

/-- A reconciled store holding exExp with its budget row and debited book. -/
def exDBE : DB := ⟨[exPlan], [⟨1, 7, 0, 2550⟩], [⟨1, "Main account", "bank", "", 7450, "INR", ""⟩],
  [exExp], 11, 3, 2⟩

/-- An invalid createExpense payload: empty label and negative amount. -/
def exPayInvalid : CreatePayload := ⟨"", -500, none, 7, 1, "2024-09-05", none, [], none⟩

/-- A createExpense payload whose entry type is income. -/
def exPayIncome : CreatePayload := ⟨"Refund", 500, some "income", 7, 1, "2024-09-05", none, [],
  none⟩

/-- A createExpense payload carrying the August plan's month key as hint
while dated inside the September plan's window. -/
def exPayHint : CreatePayload := ⟨"Gear", 2550, none, 7, 1, "2024-09-05", none, [],
  some "2024-08"⟩

/-- A createExpense payload hinting at a month key no stored plan carries. -/
def exPayBadHint : CreatePayload := ⟨"Gear", 2550, none, 7, 1, "2024-09-05", none, [],
  some "2031-01"⟩

/-- A saveMonthlyPlan payload for the September plan listing no budgets. -/
def exPlanPayloadEmpty : PlanPayload := ⟨some 1, "2024-09", "", "", false, "INR", 0, []⟩

/-- A saveMonthlyPlan payload for the September plan re-listing group 7
with a new planned value. -/
def exPlanPayloadKeep : PlanPayload := ⟨some 1, "2024-09", "", "", false, "INR", 0,
  [⟨7, 3000, 0⟩]⟩

/-- A store with no plans at all, one cash book and no expenses. -/
def exDB0 : DB := ⟨[], [], [exBook], [], 10, 3, 2⟩

/-- A createExpense payload hinting at month 2025-03 while the store holds
no plans: the hint is persisted verbatim as the expense's plan month key. -/
def exPayStale : CreatePayload := ⟨"Soccer gear", 2550, none, 7, 1, "2024-09-05", none, [],
  some "2025-03"⟩

/-- The expense persisted from exPayStale against the plan-less store. -/
def exStaleExp : Expense := (createExpense exDB0 exPayStale).2

/-- A saveMonthlyPlan payload creating a fresh September 2024 plan with no
budget entries. -/
def exPlanPayloadStale : PlanPayload := ⟨none, "2024-09", "", "", false, "INR", 0, []⟩

/-- The store reached by creating the stale-hinted expense and then saving
the September plan: the expense's persisted month 2025-03 names no stored
plan. -/
def exStaleDB : DB :=
  (saveMonthlyPlan (createExpense exDB0 exPayStale).1 exPlanPayloadStale).toOption.getD exDB0

/-! Structural lemmas about the embedded operations. -/

theorem find?_append_of_none {α : Type} (l1 l2 : List α) (p : α → Bool)
    (h : l1.find? p = none) : (l1 ++ l2).find? p = l2.find? p := by
  induction l1 with
  | nil => rfl
  | cons x xs ih =>
    by_cases hx : p x
    · rw [List.find?_cons_of_pos xs hx] at h
      exact absurd h (by simp)
    · rw [List.find?_cons_of_neg xs hx] at h
      rw [List.cons_append, List.find?_cons_of_neg _ hx]
      exact ih h

theorem find?_append_of_some {α : Type} (l1 l2 : List α) (p : α → Bool) (a : α)
    (h : l1.find? p = some a) : (l1 ++ l2).find? p = some a := by
  induction l1 with
  | nil => simp at h
  | cons x xs ih =>
    by_cases hx : p x
    · rw [List.find?_cons_of_pos xs hx] at h
      rw [List.cons_append, List.find?_cons_of_pos _ hx]
      exact h
    · rw [List.find?_cons_of_neg xs hx] at h
      rw [List.cons_append, List.find?_cons_of_neg _ hx]
      exact ih h

theorem expSum_append (es : List Expense) (e : Expense) (f : Expense → Int) :
    expSum (es ++ [e]) f = expSum es f + f e := by
  simp [expSum]

theorem expSum_nonneg (es : List Expense) (f : Expense → Int) (h : ∀ e ∈ es, 0 ≤ f e) :
    0 ≤ expSum es f := by
  refine List.sum_nonneg ?_
  intro x hx
  obtain ⟨e, he, rfl⟩ := List.mem_map.mp hx
  exact h e he

theorem le_expSum (es : List Expense) (f : Expense → Int) (e : Expense) (he : e ∈ es)
    (h : ∀ x ∈ es, 0 ≤ f x) : f e ≤ expSum es f := by
  refine List.single_le_sum ?_ (f e) (List.mem_map.mpr ⟨e, he, rfl⟩)
  intro x hx
  obtain ⟨y, hy, rfl⟩ := List.mem_map.mp hx
  exact h y hy

theorem expSum_replace (es : List Expense) (f : Expense → Int) (id : Nat) (upd e0 : Expense)
    (hmem : e0 ∈ es) (hid : e0.id = id) (hnd : (es.map (·.id)).Nodup) :
    expSum (es.map (fun x => if x.id = id then upd else x)) f = expSum es f - f e0 + f upd := by
  induction es with
  | nil => cases hmem
  | cons x xs ih =>
    simp only [List.map_cons, List.nodup_cons] at hnd
    rcases List.mem_cons.mp hmem with rfl | htail
    · have ht : xs.map (fun y => if y.id = id then upd else y) = xs := by
        have hs : ∀ y ∈ xs, (if y.id = id then upd else y) = y := by
          intro y hy
          have hyid : y.id ≠ id := by
            intro hcon
            have hm : y.id ∈ xs.map (·.id) := List.mem_map.mpr ⟨y, hy, rfl⟩
            rw [hcon, ← hid] at hm
            exact hnd.1 hm
          simp [hyid]
        rw [List.map_congr_left hs]
        exact List.map_id' xs
      simp only [List.map_cons, if_pos hid, ht, expSum, List.sum_cons]
      ring
    · have hxid : x.id ≠ id := by
        intro hcon
        have hm : e0.id ∈ xs.map (·.id) := List.mem_map.mpr ⟨e0, htail, rfl⟩
        rw [hid, ← hcon] at hm
        exact hnd.1 hm
      simp only [List.map_cons, if_neg hxid, expSum, List.sum_cons]
      have ih' := ih htail hnd.2
      simp only [expSum] at ih'
      rw [ih']
      ring

theorem expSum_remove (es : List Expense) (f : Expense → Int) (id : Nat) (e0 : Expense)
    (hmem : e0 ∈ es) (hid : e0.id = id) (hnd : (es.map (·.id)).Nodup) :
    expSum (es.filter (fun x => x.id != id)) f = expSum es f - f e0 := by
  induction es with
  | nil => cases hmem
  | cons x xs ih =>
    simp only [List.map_cons, List.nodup_cons] at hnd
    rcases List.mem_cons.mp hmem with rfl | htail
    · have hx : (e0.id != id) = false := by simp [hid]
      have hs : xs.filter (fun y => y.id != id) = xs := by
        refine List.filter_eq_self.mpr ?_
        intro y hy
        refine bne_iff_ne.mpr ?_
        intro hcon
        have hm : y.id ∈ xs.map (·.id) := List.mem_map.mpr ⟨y, hy, rfl⟩
        rw [hcon, ← hid] at hm
        exact hnd.1 hm
      rw [List.filter_cons, hx, if_neg (by simp), hs]
      simp only [expSum, List.map_cons, List.sum_cons]
      ring
    · have hxid : (x.id != id) = true := by
        refine bne_iff_ne.mpr ?_
        intro hcon
        have hm : e0.id ∈ xs.map (·.id) := List.mem_map.mpr ⟨e0, htail, rfl⟩
        rw [hid, ← hcon] at hm
        exact hnd.1 hm
      rw [List.filter_cons, hxid, if_pos rfl]
      simp only [expSum, List.map_cons, List.sum_cons]
      have ih' := ih htail hnd.2
      simp only [expSum] at ih'
      rw [ih']
      ring

theorem find?_id_of_nodup (es : List Expense) (e : Expense) (hmem : e ∈ es)
    (hnd : (es.map (·.id)).Nodup) : es.find? (fun x => x.id = e.id) = some e := by
  induction es with
  | nil => cases hmem
  | cons x xs ih =>
    simp only [List.map_cons, List.nodup_cons] at hnd
    rcases List.mem_cons.mp hmem with rfl | htail
    · exact List.find?_cons_of_pos xs (by simp)
    · have hxid : x.id ≠ e.id := by
        intro hcon
        exact hnd.1 (hcon ▸ List.mem_map.mpr ⟨e, htail, rfl⟩)
      rw [List.find?_cons_of_neg xs (by simpa using hxid)]
      exact ih htail hnd.2

theorem find?_id_fresh (es : List Expense) (e : Expense) (h : ∀ x ∈ es, x.id ≠ e.id) :
    (es ++ [e]).find? (fun x => x.id = e.id) = some e := by
  rw [find?_append_of_none _ _ _ (List.find?_eq_none.mpr (by simpa using h))]
  exact List.find?_cons_of_pos _ (by simp)

theorem filter_id_fresh (es : List Expense) (e : Expense) (h : ∀ x ∈ es, x.id ≠ e.id) :
    (es ++ [e]).filter (fun x => x.id != e.id) = es := by
  rw [List.filter_append]
  have h1 : es.filter (fun x => x.id != e.id) = es :=
    List.filter_eq_self.mpr (fun x hx => bne_iff_ne.mpr (h x hx))
  have h2 : [e].filter (fun x => x.id != e.id) = [] := by simp
  rw [h1, h2, List.append_nil]

theorem find?_key_map (rows : List BudgetRow) (f : BudgetRow → BudgetRow)
    (hf : ∀ r, (f r).planId = r.planId ∧ (f r).groupId = r.groupId) (pid g : Nat) :
    (rows.map f).find? (fun r => r.planId = pid && r.groupId = g) =
      (rows.find? (fun r => r.planId = pid && r.groupId = g)).map f := by
  induction rows with
  | nil => rfl
  | cons r rs ih =>
    simp only [List.map_cons, List.find?, (hf r).1, (hf r).2]
    cases hk : (decide (r.planId = pid) && decide (r.groupId = g)) with
    | true => rfl
    | false => exact ih

theorem getActualRows_upsert (rows : List BudgetRow) (pid g pid' g' : Nat) (δ : Int) :
    getActualRows (upsertBudgetActual rows pid g δ) pid' g' =
      if pid' = pid ∧ g' = g then max (getActualRows rows pid g + δ) 0
      else getActualRows rows pid' g' := by
  unfold upsertBudgetActual
  by_cases hany : rows.any (fun r => r.planId = pid && r.groupId = g) = true
  · rw [if_pos hany]
    have hf : ∀ r : BudgetRow,
        ((if r.planId = pid && r.groupId = g then { r with actual := max (r.actual + δ) 0 }
          else r) : BudgetRow).planId = r.planId ∧
        ((if r.planId = pid && r.groupId = g then { r with actual := max (r.actual + δ) 0 }
          else r) : BudgetRow).groupId = r.groupId := by
      intro r
      by_cases h : (r.planId = pid && r.groupId = g) = true <;> simp [h]
    by_cases hkey : pid' = pid ∧ g' = g
    · obtain ⟨h1, h2⟩ := hkey
      subst h1
      subst h2
      rw [if_pos ⟨rfl, rfl⟩, getActualRows, find?_key_map _ _ hf]
      obtain ⟨r0, hr0mem, hr0key⟩ := List.any_eq_true.mp hany
      cases hfind : rows.find? (fun r => r.planId = pid' && r.groupId = g') with
      | none => exact absurd (List.find?_eq_none.mp hfind r0 hr0mem) (by simp [hr0key])
      | some r1 =>
        have hr1 : r1.planId = pid' ∧ r1.groupId = g' := by
          have := List.find?_some hfind
          simpa using this
        simp [getActualRows, hfind, hr1]
    · rw [if_neg hkey, getActualRows, find?_key_map _ _ hf]
      cases hfind : rows.find? (fun r => r.planId = pid' && r.groupId = g') with
      | none => simp [getActualRows, hfind]
      | some r1 =>
        have hr1 : r1.planId = pid' ∧ r1.groupId = g' := by
          have := List.find?_some hfind
          simpa using this
        have hfalse : ¬ (r1.planId = pid ∧ r1.groupId = g) := by
          intro h
          exact hkey ⟨by rw [← hr1.1, h.1], by rw [← hr1.2, h.2]⟩
        simp [getActualRows, hfind, hfalse]
  · rw [if_neg hany]
    have hnone : rows.find? (fun r => r.planId = pid && r.groupId = g) = none := by
      refine List.find?_eq_none.mpr ?_
      intro x hx hpx
      exact hany (List.any_eq_true.mpr ⟨x, hx, hpx⟩)
    by_cases hkey : pid' = pid ∧ g' = g
    · obtain ⟨h1, h2⟩ := hkey
      subst h1
      subst h2
      rw [if_pos ⟨rfl, rfl⟩, getActualRows, find?_append_of_none _ _ _ hnone]
      simp [List.find?, getActualRows, hnone]
    · rw [if_neg hkey]
      cases hfind : rows.find? (fun r => r.planId = pid' && r.groupId = g') with
      | some r1 =>
        rw [getActualRows, find?_append_of_some _ _ _ _ hfind]
        simp [getActualRows, hfind]
      | none =>
        rw [getActualRows, find?_append_of_none _ _ _ hfind]
        have hcond : (decide (pid = pid') && decide (g = g')) = false := by
          by_contra h
          simp only [Bool.not_eq_false, Bool.and_eq_true, decide_eq_true_eq] at h
          exact hkey ⟨h.1.symm, h.2.symm⟩
        simp [List.find?, hcond, getActualRows, hfind]

theorem getActualRows_adjusted (plans : List MonthlyPlan) (rows : List BudgetRow)
    (g : Nat) (δ : Int) (mk : Option String) (pid' g' : Nat) :
    getActualRows (adjustedBudgets plans rows g δ mk) pid' g' =
      if lookupPlanId plans mk = some pid' ∧ g' = g ∧ δ ≠ 0 then
        max (getActualRows rows pid' g' + δ) 0
      else getActualRows rows pid' g' := by
  by_cases hδ : δ = 0
  · simp [adjustedBudgets, hδ]
  · cases mk with
    | none => simp [adjustedBudgets, lookupPlanId, hδ]
    | some key =>
      cases hfind : plans.find? (fun p => p.month = key) with
      | none => simp [adjustedBudgets, lookupPlanId, hδ, hfind]
      | some p =>
        simp only [adjustedBudgets, lookupPlanId, hfind, if_neg hδ, Option.map_some']
        rw [getActualRows_upsert]
        by_cases hk : pid' = p.id ∧ g' = g
        · obtain ⟨h1, h2⟩ := hk
          subst h1
          subst h2
          rw [if_pos ⟨rfl, rfl⟩, if_pos ⟨rfl, rfl, hδ⟩]
        · have hk2 : ¬ (some p.id = some pid' ∧ g' = g ∧ δ ≠ 0) := by
            intro hcon
            exact hk ⟨(Option.some_inj.mp hcon.1).symm, hcon.2.1⟩
          rw [if_neg hk, if_neg hk2]

theorem mem_fetchPlans (s : DB) (p : MonthlyPlan) : p ∈ fetchPlans s ↔ p ∈ s.plans :=
  (List.perm_insertionSort planMonthGe s.plans).mem_iff

theorem fetchPlans_nil (s : DB) : fetchPlans s = [] ↔ s.plans = [] := by
  constructor
  · intro h
    have hp := List.perm_insertionSort planMonthGe s.plans
    rw [fetchPlans] at h
    rw [h] at hp
    exact (hp.symm.eq_nil)
  · intro h
    rw [fetchPlans, h]
    rfl

theorem findPlan_cases (plans : List MonthlyPlan) (d : String) (hint : Option String) :
    (plans = [] ∧ findPlanForExpense plans d hint = ⟨none, hint⟩) ∨
    (∃ p ∈ plans, findPlanForExpense plans d hint = ⟨some p, some p.month⟩) := by
  unfold findPlanForExpense
  by_cases he : plans.isEmpty
  · refine Or.inl ⟨List.isEmpty_iff.mp he, ?_⟩
    rw [if_pos he]
  · refine Or.inr ?_
    have hne : plans ≠ [] := by simpa [List.isEmpty_iff] using he
    rw [if_neg he]
    have hfb : ∃ p ∈ plans, findPlanFallback plans d = ⟨some p, some p.month⟩ := by
      unfold findPlanFallback
      cases hfind : plans.find? (fun q => planWindowContains q d) with
      | some q => exact ⟨q, List.mem_of_find?_eq_some hfind, rfl⟩
      | none =>
        cases plans with
        | nil => exact absurd rfl hne
        | cons a l => exact ⟨a, List.mem_cons_self a l, rfl⟩
    cases hint with
    | none => exact hfb
    | some k =>
      cases hfind : plans.find? (fun q => q.month = k) with
      | some q =>
        refine ⟨q, List.mem_of_find?_eq_some hfind, ?_⟩
        simp only [hfind]
      | none =>
        simpa only [hfind] using hfb

theorem findPlan_resolvedKey (plans : List MonthlyPlan) (d : String) (hint : Option String) :
    (match (findPlanForExpense plans d hint).plan with
     | some pl => some pl.month
     | none => (findPlanForExpense plans d hint).monthKey) =
    (findPlanForExpense plans d hint).monthKey := by
  rcases findPlan_cases plans d hint with ⟨_, heq⟩ | ⟨p, _, heq⟩ <;> rw [heq]

theorem findPlan_empty (d : String) (hint : Option String) :
    findPlanForExpense [] d hint = ⟨none, hint⟩ := rfl

theorem findPlan_hint_found {plans : List MonthlyPlan} {k : String} {p : MonthlyPlan}
    (d : String) (hf : plans.find? (fun q => q.month = k) = some p) :
    findPlanForExpense plans d (some k) = ⟨some p, some p.month⟩ := by
  have hne : ¬ plans.isEmpty = true := by
    have := List.mem_of_find?_eq_some hf
    cases plans with
    | nil => cases this
    | cons a l => simp
  unfold findPlanForExpense
  rw [if_neg hne]
  simp only [hf]

theorem findPlan_hint_missing {plans : List MonthlyPlan} {k : String} (d : String)
    (hne : plans ≠ []) (hf : plans.find? (fun q => q.month = k) = none) :
    findPlanForExpense plans d (some k) = findPlanForExpense plans d none := by
  have hne' : ¬ plans.isEmpty = true := by simpa [List.isEmpty_iff] using hne
  unfold findPlanForExpense
  rw [if_neg hne', if_neg hne']
  simp only [hf]

theorem lookupPlanId_some_iff {plans : List MonthlyPlan} {p : MonthlyPlan}
    (hndID : (plans.map (·.id)).Nodup) (hndM : (plans.map (·.month)).Nodup)
    (hp : p ∈ plans) (mk : Option String) :
    lookupPlanId plans mk = some p.id ↔ mk = some p.month := by
  cases mk with
  | none => simp [lookupPlanId]
  | some k =>
    cases hfind : plans.find? (fun q => q.month = k) with
    | none =>
      have hk : k ≠ p.month := by
        intro hcon
        have := List.find?_eq_none.mp hfind p hp
        simp [hcon] at this
      simp [lookupPlanId, hfind, hk]
    | some q =>
      have hqmem := List.mem_of_find?_eq_some hfind
      have hqm : q.month = k := by simpa using List.find?_some hfind
      simp only [lookupPlanId, hfind, Option.map_some', Option.some_inj]
      constructor
      · intro h
        have hqp : q = p := List.inj_on_of_nodup_map hndID hqmem hp h
        rw [← hqp, hqm]
      · intro h
        have hqp : q = p := List.inj_on_of_nodup_map hndM hqmem hp (by rw [hqm, h])
        rw [hqp]

theorem adjustOneBook_id (bid : Nat) (δ : Int) (b : CashBook) :
    (adjustOneBook bid δ b).id = b.id := by
  unfold adjustOneBook
  by_cases h : b.id = bid <;> simp [h]

theorem adjustOneBook_balance (bid : Nat) (δ : Int) (b : CashBook) :
    (adjustOneBook bid δ b).balance = b.balance - (if b.id = bid then δ else 0) := by
  unfold adjustOneBook
  by_cases h : b.id = bid <;> simp [h]

theorem mem_adjustedBooks {books : List CashBook} {bid : Nat} {δ : Int} {b' : CashBook}
    (h : b' ∈ adjustedBooks books bid δ) :
    ∃ b ∈ books, b'.id = b.id ∧
      b'.balance = b.balance - (if b.id = bid ∧ δ ≠ 0 then δ else 0) := by
  unfold adjustedBooks at h
  by_cases hδ : δ = 0
  · rw [if_pos hδ] at h
    exact ⟨b', h, rfl, by simp [hδ]⟩
  · rw [if_neg hδ] at h
    obtain ⟨b, hb, rfl⟩ := List.mem_map.mp h
    refine ⟨b, hb, adjustOneBook_id bid δ b, ?_⟩
    rw [adjustOneBook_balance]
    by_cases hid : b.id = bid <;> simp [hid, hδ]

theorem adjustOneBook_comp (bid : Nat) (δ1 δ2 : Int) (b : CashBook) :
    adjustOneBook bid δ2 (adjustOneBook bid δ1 b) = adjustOneBook bid (δ1 + δ2) b := by
  cases b with
  | mk id name bookType accountNumber balance currency notes =>
    by_cases h : id = bid
    · simp [adjustOneBook, h]
      ring
    · simp [adjustOneBook, h]

theorem adjustOneBook_zero (bid : Nat) (b : CashBook) : adjustOneBook bid 0 b = b := by
  cases b with
  | mk id name bookType accountNumber balance currency notes =>
    by_cases h : id = bid <;> simp [adjustOneBook, h]

theorem adjustedBooks_comp (books : List CashBook) (bid : Nat) (δ1 δ2 : Int) :
    adjustedBooks (adjustedBooks books bid δ1) bid δ2 = adjustedBooks books bid (δ1 + δ2) := by
  by_cases h1 : δ1 = 0
  · subst h1
    rw [show ((0 : Int) + δ2) = δ2 by ring]
    unfold adjustedBooks
    rw [if_pos rfl]
  · by_cases h2 : δ2 = 0
    · subst h2
      rw [show (δ1 + (0 : Int)) = δ1 by ring]
      unfold adjustedBooks
      rw [if_pos rfl]
    · by_cases h12 : δ1 + δ2 = 0
      · unfold adjustedBooks
        rw [if_neg h1, if_neg h2, if_pos h12, List.map_map]
        have hpt : ∀ b ∈ books, (adjustOneBook bid δ2 ∘ adjustOneBook bid δ1) b = b := by
          intro b _
          rw [Function.comp_apply, adjustOneBook_comp, h12]
          exact adjustOneBook_zero bid b
        rw [List.map_congr_left hpt]
        exact List.map_id' books
      · unfold adjustedBooks
        rw [if_neg h1, if_neg h2, if_neg h12, List.map_map]
        refine List.map_congr_left ?_
        intro b _
        rw [Function.comp_apply, adjustOneBook_comp]

theorem createExpense_eq (s : DB) (p : CreatePayload) :
    createExpense s p = (createdState s p, createdExpense s p) := by
  rcases findPlan_cases (fetchPlans s) p.date p.planMonth with ⟨_, heq⟩ | ⟨q, _, heq⟩ <;>
    simp only [createExpense, createdState, createdExpense, heq] <;> rfl

theorem updateExpense_eq (s : DB) (id : Nat) (p : UpdatePayload) (prev : Expense)
    (hfind : s.expenses.find? (fun e => e.id = id) = some prev) :
    updateExpense s id p = Except.ok (updatedState s id p prev, mergedExpense s p prev) := by
  rcases findPlan_cases (fetchPlans s) (updateDate p prev) (updateHint p prev) with
    ⟨_, heq⟩ | ⟨q, _, heq⟩ <;>
  · simp only [updateDate, updateHint] at heq
    simp only [updateExpense, updatedState, mergedExpense, updateDate, updateHint, hfind, heq]
    rfl

theorem deleteExpense_eq (s : DB) (id : Nat) (rem : Expense)
    (hfind : s.expenses.find? (fun e => e.id = id) = some rem) :
    deleteExpense s id = Except.ok (deletedState s id rem, rem) := by
  simp only [deleteExpense, deletedState, hfind]
  rfl

theorem expenseContrib_nonneg (m : String) (g : Nat) (e : Expense) (h : 0 ≤ e.amountCents) :
    0 ≤ expenseContrib m g e := by
  unfold expenseContrib
  split
  · exact h
  · exact le_refl 0

theorem expenseContrib_eq (m : String) (g : Nat) (e : Expense)
    (h1 : e.planMonthKey = some m) (h2 : e.groupId = g) : expenseContrib m g e = e.amountCents := by
  simp [expenseContrib, h1, h2]

theorem expenseContrib_zero (m : String) (g : Nat) (e : Expense)
    (h : ¬ (e.planMonthKey = some m ∧ e.groupId = g)) : expenseContrib m g e = 0 := by
  simp [expenseContrib, h]

theorem sumActual_nonneg (s : DB) (m : String) (g : Nat)
    (h : ∀ e ∈ s.expenses, 0 ≤ e.amountCents) : 0 ≤ sumActual s m g :=
  expSum_nonneg _ _ (fun e he => expenseContrib_nonneg m g e (h e he))

theorem expenseContrib_le_sumActual (s : DB) (m : String) (g : Nat) (e : Expense)
    (he : e ∈ s.expenses) (h : ∀ x ∈ s.expenses, 0 ≤ x.amountCents) :
    expenseContrib m g e ≤ sumActual s m g :=
  le_expSum _ _ _ he (fun x hx => expenseContrib_nonneg m g x (h x hx))

theorem expenseContrib_of_zero (m : String) (g : Nat) (e : Expense) (h : e.amountCents = 0) :
    expenseContrib m g e = 0 := by
  unfold expenseContrib
  split
  · exact h
  · rfl

theorem createdExpense_book (s : DB) (p : CreatePayload) :
    (createdExpense s p).cashBookId = p.cashBookId := rfl

theorem createdExpense_amount (s : DB) (p : CreatePayload) :
    (createdExpense s p).amountCents = p.amountCents := rfl

theorem wf_createdState (s : DB) (p : CreatePayload) (hwf : WF s) : WF (createdState s p) := by
  obtain ⟨hndE, hbound, hndP, hndM⟩ := hwf
  have hfresh : ∀ x ∈ s.expenses, x.id ≠ s.nextExpenseId := fun x hx =>
    Nat.ne_of_lt (hbound x hx)
  refine ⟨?_, ?_, hndP, hndM⟩
  · show ((s.expenses ++ [createdExpense s p]).map (·.id)).Nodup
    rw [List.map_append]
    refine List.nodup_append.mpr ⟨hndE, List.nodup_singleton _, ?_⟩
    intro a ha hb
    simp only [List.map_cons, List.map_nil, List.mem_singleton] at hb
    obtain ⟨x, hx, rfl⟩ := List.mem_map.mp ha
    exact hfresh x hx hb
  · intro e he
    show e.id < s.nextExpenseId + 1
    rcases List.mem_append.mp he with he | he
    · exact Nat.lt_succ_of_lt (hbound e he)
    · simp only [List.mem_singleton] at he
      subst he
      exact Nat.lt_succ_self _

theorem wf_updatedState (s : DB) (id : Nat) (p : UpdatePayload) (prev : Expense)
    (hfind : s.expenses.find? (fun e => e.id = id) = some prev) (hwf : WF s) :
    WF (updatedState s id p prev) := by
  obtain ⟨hndE, hbound, hndP, hndM⟩ := hwf
  have hprevmem : prev ∈ s.expenses := List.mem_of_find?_eq_some hfind
  have hprevid : prev.id = id := by simpa using List.find?_some hfind
  have hids : (updatedState s id p prev).expenses.map (·.id) = s.expenses.map (·.id) := by
    show (s.expenses.map fun e => if e.id = id then mergedExpense s p prev else e).map (·.id) = _
    rw [List.map_map]
    refine List.map_congr_left ?_
    intro x hx
    by_cases hxid : x.id = id
    · show (if x.id = id then mergedExpense s p prev else x).id = x.id
      rw [if_pos hxid]
      show prev.id = x.id
      rw [hprevid, hxid]
    · show (if x.id = id then mergedExpense s p prev else x).id = x.id
      rw [if_neg hxid]
  refine ⟨?_, ?_, hndP, hndM⟩
  · rw [hids]
    exact hndE
  · intro e he
    obtain ⟨x, hx, rfl⟩ := List.mem_map.mp he
    by_cases hxid : x.id = id
    · rw [if_pos hxid]
      show prev.id < s.nextExpenseId
      exact hbound prev hprevmem
    · rw [if_neg hxid]
      exact hbound x hx

theorem wf_deletedState (s : DB) (id : Nat) (rem : Expense) (hwf : WF s) :
    WF (deletedState s id rem) := by
  obtain ⟨hndE, hbound, hndP, hndM⟩ := hwf
  refine ⟨?_, ?_, hndP, hndM⟩
  · have hsub : ((s.expenses.filter (fun e => e.id != id)).map (·.id)).Sublist
        (s.expenses.map (·.id)) := (List.filter_sublist _).map _
    exact List.Nodup.sublist hsub hndE
  · intro e he
    exact hbound e (List.mem_of_mem_filter he)

theorem invActuals_createdState (s : DB) (p : CreatePayload) (hwf : WF s) (hinv : InvActuals s)
    (ha : 0 ≤ p.amountCents) : InvActuals (createdState s p) := by
  obtain ⟨hamts, hact⟩ := hinv
  obtain ⟨hndE, hbound, hndP, hndM⟩ := hwf
  constructor
  · intro e he
    rcases List.mem_append.mp he with he | he
    · exact hamts e he
    · simp only [List.mem_singleton] at he
      subst he
      exact ha
  · intro q hq g
    have hq' : q ∈ s.plans := hq
    have hga : getActual (createdState s p) q.id g =
        if lookupPlanId s.plans (createdExpense s p).planMonthKey = some q.id ∧
            g = p.groupId ∧ p.amountCents ≠ 0 then
          max (getActualRows s.budgets q.id g + p.amountCents) 0
        else getActualRows s.budgets q.id g := getActualRows_adjusted _ _ _ _ _ _ _
    have hsum : sumActual (createdState s p) q.month g =
        sumActual s q.month g + expenseContrib q.month g (createdExpense s p) :=
      expSum_append _ _ _
    have hold : getActualRows s.budgets q.id g = sumActual s q.month g := hact q hq' g
    have hlk := lookupPlanId_some_iff hndP hndM hq' (createdExpense s p).planMonthKey
    rw [hga, hsum, hold]
    have hS : 0 ≤ sumActual s q.month g := sumActual_nonneg s _ _ hamts
    by_cases hc : (createdExpense s p).planMonthKey = some q.month ∧ g = p.groupId ∧
        p.amountCents ≠ 0
    · rw [if_pos ⟨hlk.mpr hc.1, hc.2.1, hc.2.2⟩]
      have hcontrib : expenseContrib q.month g (createdExpense s p) = p.amountCents :=
        expenseContrib_eq _ _ _ hc.1 hc.2.1.symm
      rw [hcontrib]
      omega
    · rw [if_neg (fun hcon => hc ⟨hlk.mp hcon.1, hcon.2.1, hcon.2.2⟩)]
      have hcontrib : expenseContrib q.month g (createdExpense s p) = 0 := by
        by_cases hz : p.amountCents = 0
        · exact expenseContrib_of_zero _ _ _ hz
        · exact expenseContrib_zero _ _ _ (fun hcon => hc ⟨hcon.1, hcon.2.symm, hz⟩)
      rw [hcontrib, add_zero]

theorem cashInv_createdState (s : DB) (p : CreatePayload) (opening : Nat → Int)
    (hci : CashInv s opening) : CashInv (createdState s p) opening := by
  intro b' hb'
  have hb2 : b' ∈ adjustedBooks s.cashBooks p.cashBookId p.amountCents := hb'
  obtain ⟨b, hb, hid, hbal⟩ := mem_adjustedBooks hb2
  have howes : owes (createdState s p) b'.id =
      owes s b'.id + bookContrib b'.id (createdExpense s p) := expSum_append _ _ _
  show b'.balance = opening b'.id - owes (createdState s p) b'.id
  rw [howes, hbal, hid, hci b hb]
  simp only [bookContrib, createdExpense_book, createdExpense_amount]
  split_ifs <;> omega

theorem invActuals_updatedState (s : DB) (id : Nat) (p : UpdatePayload) (prev : Expense)
    (hfind : s.expenses.find? (fun e => e.id = id) = some prev)
    (hwf : WF s) (hinv : InvActuals s)
    (hamt : ∀ a : Int, p.amountCents = some a → 0 ≤ a) :
    InvActuals (updatedState s id p prev) := by
  obtain ⟨hamts, hact⟩ := hinv
  obtain ⟨hndE, hbound, hndP, hndM⟩ := hwf
  have hprevmem : prev ∈ s.expenses := List.mem_of_find?_eq_some hfind
  have hprevid : prev.id = id := by simpa using List.find?_some hfind
  have ha0 : 0 ≤ prev.amountCents := hamts prev hprevmem
  have ha1 : 0 ≤ (mergedExpense s p prev).amountCents := by
    show 0 ≤ p.amountCents.getD prev.amountCents
    cases hpa : p.amountCents with
    | none => simpa using ha0
    | some a => simpa using hamt a hpa
  constructor
  · intro e he
    obtain ⟨x, hx, rfl⟩ := List.mem_map.mp he
    by_cases hxid : x.id = id
    · simpa [hxid] using ha1
    · simpa [hxid] using hamts x hx
  · intro q hq g
    have hq' : q ∈ s.plans := hq
    have hga2 : getActual (updatedState s id p prev) q.id g =
        if lookupPlanId s.plans (mergedExpense s p prev).planMonthKey = some q.id ∧
            g = (mergedExpense s p prev).groupId ∧ (mergedExpense s p prev).amountCents ≠ 0 then
          max (getActualRows (adjustedBudgets s.plans s.budgets prev.groupId
              (-prev.amountCents) prev.planMonthKey) q.id g +
            (mergedExpense s p prev).amountCents) 0
        else getActualRows (adjustedBudgets s.plans s.budgets prev.groupId
          (-prev.amountCents) prev.planMonthKey) q.id g :=
      getActualRows_adjusted _ _ _ _ _ _ _
    have hga1 : getActualRows (adjustedBudgets s.plans s.budgets prev.groupId
        (-prev.amountCents) prev.planMonthKey) q.id g =
        if lookupPlanId s.plans prev.planMonthKey = some q.id ∧ g = prev.groupId ∧
            -prev.amountCents ≠ 0 then
          max (sumActual s q.month g + -prev.amountCents) 0
        else sumActual s q.month g := by
      have hold : getActualRows s.budgets q.id g = sumActual s q.month g := hact q hq' g
      rw [getActualRows_adjusted, hold]
    have hsum : sumActual (updatedState s id p prev) q.month g =
        sumActual s q.month g - expenseContrib q.month g prev +
          expenseContrib q.month g (mergedExpense s p prev) :=
      expSum_replace s.expenses _ id (mergedExpense s p prev) prev hprevmem hprevid hndE
    have hl0 := lookupPlanId_some_iff hndP hndM hq' prev.planMonthKey
    have hl1 := lookupPlanId_some_iff hndP hndM hq' (mergedExpense s p prev).planMonthKey
    have hS : 0 ≤ sumActual s q.month g := sumActual_nonneg s _ _ hamts
    rw [hga2, hsum]
    by_cases P1 : (mergedExpense s p prev).planMonthKey = some q.month ∧
        g = (mergedExpense s p prev).groupId ∧ (mergedExpense s p prev).amountCents ≠ 0
    · rw [if_pos ⟨hl1.mpr P1.1, P1.2.1, P1.2.2⟩]
      have hc1 : expenseContrib q.month g (mergedExpense s p prev) =
          (mergedExpense s p prev).amountCents := expenseContrib_eq _ _ _ P1.1 P1.2.1.symm
      rw [hc1, hga1]
      by_cases P0 : prev.planMonthKey = some q.month ∧ g = prev.groupId ∧ prev.amountCents ≠ 0
      · rw [if_pos ⟨hl0.mpr P0.1, P0.2.1, neg_ne_zero.mpr P0.2.2⟩]
        have hc0 : expenseContrib q.month g prev = prev.amountCents :=
          expenseContrib_eq _ _ _ P0.1 P0.2.1.symm
        have hle : prev.amountCents ≤ sumActual s q.month g := by
          rw [← hc0]
          exact expenseContrib_le_sumActual s q.month g prev hprevmem hamts
        rw [hc0]
        omega
      · rw [if_neg (fun hcon => P0 ⟨hl0.mp hcon.1, hcon.2.1, neg_ne_zero.mp hcon.2.2⟩)]
        have hc0 : expenseContrib q.month g prev = 0 := by
          by_cases hz : prev.amountCents = 0
          · exact expenseContrib_of_zero _ _ _ hz
          · exact expenseContrib_zero _ _ _ (fun hcon => P0 ⟨hcon.1, hcon.2.symm, hz⟩)
        rw [hc0]
        omega
    · rw [if_neg (fun hcon => P1 ⟨hl1.mp hcon.1, hcon.2.1, hcon.2.2⟩)]
      have hc1 : expenseContrib q.month g (mergedExpense s p prev) = 0 := by
        by_cases hz : (mergedExpense s p prev).amountCents = 0
        · exact expenseContrib_of_zero _ _ _ hz
        · exact expenseContrib_zero _ _ _ (fun hcon => P1 ⟨hcon.1, hcon.2.symm, hz⟩)
      rw [hc1, hga1]
      by_cases P0 : prev.planMonthKey = some q.month ∧ g = prev.groupId ∧ prev.amountCents ≠ 0
      · rw [if_pos ⟨hl0.mpr P0.1, P0.2.1, neg_ne_zero.mpr P0.2.2⟩]
        have hc0 : expenseContrib q.month g prev = prev.amountCents :=
          expenseContrib_eq _ _ _ P0.1 P0.2.1.symm
        have hle : prev.amountCents ≤ sumActual s q.month g := by
          rw [← hc0]
          exact expenseContrib_le_sumActual s q.month g prev hprevmem hamts
        rw [hc0]
        omega
      · rw [if_neg (fun hcon => P0 ⟨hl0.mp hcon.1, hcon.2.1, neg_ne_zero.mp hcon.2.2⟩)]
        have hc0 : expenseContrib q.month g prev = 0 := by
          by_cases hz : prev.amountCents = 0
          · exact expenseContrib_of_zero _ _ _ hz
          · exact expenseContrib_zero _ _ _ (fun hcon => P0 ⟨hcon.1, hcon.2.symm, hz⟩)
        rw [hc0]
        omega

theorem invActuals_deletedState (s : DB) (id : Nat) (rem : Expense)
    (hfind : s.expenses.find? (fun e => e.id = id) = some rem)
    (hwf : WF s) (hinv : InvActuals s) : InvActuals (deletedState s id rem) := by
  obtain ⟨hamts, hact⟩ := hinv
  obtain ⟨hndE, hbound, hndP, hndM⟩ := hwf
  have hmem : rem ∈ s.expenses := List.mem_of_find?_eq_some hfind
  have hremid : rem.id = id := by simpa using List.find?_some hfind
  constructor
  · intro e he
    exact hamts e (List.mem_of_mem_filter he)
  · intro q hq g
    have hq' : q ∈ s.plans := hq
    have hga : getActual (deletedState s id rem) q.id g =
        if lookupPlanId s.plans rem.planMonthKey = some q.id ∧ g = rem.groupId ∧
            -rem.amountCents ≠ 0 then
          max (getActualRows s.budgets q.id g + -rem.amountCents) 0
        else getActualRows s.budgets q.id g := getActualRows_adjusted _ _ _ _ _ _ _
    have hsum : sumActual (deletedState s id rem) q.month g =
        sumActual s q.month g - expenseContrib q.month g rem :=
      expSum_remove s.expenses _ id rem hmem hremid hndE
    have hold : getActualRows s.budgets q.id g = sumActual s q.month g := hact q hq' g
    have hl0 := lookupPlanId_some_iff hndP hndM hq' rem.planMonthKey
    have hS : 0 ≤ sumActual s q.month g := sumActual_nonneg s _ _ hamts
    rw [hga, hsum, hold]
    by_cases P0 : rem.planMonthKey = some q.month ∧ g = rem.groupId ∧ rem.amountCents ≠ 0
    · rw [if_pos ⟨hl0.mpr P0.1, P0.2.1, neg_ne_zero.mpr P0.2.2⟩]
      have hc0 : expenseContrib q.month g rem = rem.amountCents :=
        expenseContrib_eq _ _ _ P0.1 P0.2.1.symm
      have hle : rem.amountCents ≤ sumActual s q.month g := by
        rw [← hc0]
        exact expenseContrib_le_sumActual s q.month g rem hmem hamts
      rw [hc0]
      omega
    · rw [if_neg (fun hcon => P0 ⟨hl0.mp hcon.1, hcon.2.1, neg_ne_zero.mp hcon.2.2⟩)]
      have hc0 : expenseContrib q.month g rem = 0 := by
        by_cases hz : rem.amountCents = 0
        · exact expenseContrib_of_zero _ _ _ hz
        · exact expenseContrib_zero _ _ _ (fun hcon => P0 ⟨hcon.1, hcon.2.symm, hz⟩)
      rw [hc0]
      omega

theorem cashInv_updatedState (s : DB) (id : Nat) (p : UpdatePayload) (prev : Expense)
    (opening : Nat → Int)
    (hfind : s.expenses.find? (fun e => e.id = id) = some prev)
    (hndE : (s.expenses.map (·.id)).Nodup) (hci : CashInv s opening) :
    CashInv (updatedState s id p prev) opening := by
  intro b' hb'
  have hprevmem : prev ∈ s.expenses := List.mem_of_find?_eq_some hfind
  have hprevid : prev.id = id := by simpa using List.find?_some hfind
  have hb2 : b' ∈ adjustedBooks (adjustedBooks s.cashBooks prev.cashBookId (-prev.amountCents))
      (mergedExpense s p prev).cashBookId (mergedExpense s p prev).amountCents := hb'
  obtain ⟨b1, hb1, hid1, hbal1⟩ := mem_adjustedBooks hb2
  obtain ⟨b, hb, hid0, hbal0⟩ := mem_adjustedBooks hb1
  have howes : owes (updatedState s id p prev) b'.id =
      owes s b'.id - bookContrib b'.id prev + bookContrib b'.id (mergedExpense s p prev) :=
    expSum_replace s.expenses _ id (mergedExpense s p prev) prev hprevmem hprevid hndE
  show b'.balance = opening b'.id - owes (updatedState s id p prev) b'.id
  rw [howes, hbal1, hbal0, hid1, hid0, hci b hb]
  simp only [bookContrib]
  split_ifs <;> omega

theorem cashInv_deletedState (s : DB) (id : Nat) (rem : Expense) (opening : Nat → Int)
    (hfind : s.expenses.find? (fun e => e.id = id) = some rem)
    (hndE : (s.expenses.map (·.id)).Nodup) (hci : CashInv s opening) :
    CashInv (deletedState s id rem) opening := by
  intro b' hb'
  have hmem : rem ∈ s.expenses := List.mem_of_find?_eq_some hfind
  have hremid : rem.id = id := by simpa using List.find?_some hfind
  have hb2 : b' ∈ adjustedBooks s.cashBooks rem.cashBookId (-rem.amountCents) := hb'
  obtain ⟨b, hb, hid, hbal⟩ := mem_adjustedBooks hb2
  have howes : owes (deletedState s id rem) b'.id = owes s b'.id - bookContrib b'.id rem :=
    expSum_remove s.expenses _ id rem hmem hremid hndE
  show b'.balance = opening b'.id - owes (deletedState s id rem) b'.id
  rw [howes, hbal, hid, hci b hb]
  simp only [bookContrib]
  split_ifs <;> omega

theorem updateExpense_notFound (s : DB) (id : Nat) (p : UpdatePayload)
    (hfind : s.expenses.find? (fun e => e.id = id) = none) :
    updateExpense s id p = Except.error "Expense not found" := by
  simp only [updateExpense, hfind]

theorem deleteExpense_notFound (s : DB) (id : Nat)
    (hfind : s.expenses.find? (fun e => e.id = id) = none) :
    deleteExpense s id = Except.error "Expense not found" := by
  simp only [deleteExpense, hfind]

theorem wf_applyOp (s : DB) (op : Op) (hwf : WF s) : WF (applyOp s op) := by
  cases op with
  | create p =>
    simp only [applyOp, createExpense_eq]
    exact wf_createdState s p hwf
  | update id p =>
    cases hfind : s.expenses.find? (fun e => e.id = id) with
    | none => simpa only [applyOp, updateExpense_notFound s id p hfind] using hwf
    | some prev =>
      simpa only [applyOp, updateExpense_eq s id p prev hfind] using
        wf_updatedState s id p prev hfind hwf
  | delete id =>
    cases hfind : s.expenses.find? (fun e => e.id = id) with
    | none => simpa only [applyOp, deleteExpense_notFound s id hfind] using hwf
    | some rem =>
      simpa only [applyOp, deleteExpense_eq s id rem hfind] using
        wf_deletedState s id rem hwf

theorem invActuals_applyOp (s : DB) (op : Op) (hwf : WF s) (hinv : InvActuals s)
    (hop : opNonneg op) : InvActuals (applyOp s op) := by
  cases op with
  | create p =>
    simp only [applyOp, createExpense_eq]
    exact invActuals_createdState s p hwf hinv hop
  | update id p =>
    cases hfind : s.expenses.find? (fun e => e.id = id) with
    | none => simpa only [applyOp, updateExpense_notFound s id p hfind] using hinv
    | some prev =>
      simpa only [applyOp, updateExpense_eq s id p prev hfind] using
        invActuals_updatedState s id p prev hfind hwf hinv hop
  | delete id =>
    cases hfind : s.expenses.find? (fun e => e.id = id) with
    | none => simpa only [applyOp, deleteExpense_notFound s id hfind] using hinv
    | some rem =>
      simpa only [applyOp, deleteExpense_eq s id rem hfind] using
        invActuals_deletedState s id rem hfind hwf hinv

theorem cashInv_applyOp (s : DB) (op : Op) (opening : Nat → Int) (hwf : WF s)
    (hci : CashInv s opening) : CashInv (applyOp s op) opening := by
  cases op with
  | create p =>
    simp only [applyOp, createExpense_eq]
    exact cashInv_createdState s p opening hci
  | update id p =>
    cases hfind : s.expenses.find? (fun e => e.id = id) with
    | none => simpa only [applyOp, updateExpense_notFound s id p hfind] using hci
    | some prev =>
      simpa only [applyOp, updateExpense_eq s id p prev hfind] using
        cashInv_updatedState s id p prev opening hfind hwf.1 hci
  | delete id =>
    cases hfind : s.expenses.find? (fun e => e.id = id) with
    | none => simpa only [applyOp, deleteExpense_notFound s id hfind] using hci
    | some rem =>
      simpa only [applyOp, deleteExpense_eq s id rem hfind] using
        cashInv_deletedState s id rem opening hfind hwf.1 hci

theorem wfInv_runOps (s : DB) (ops : List Op) (hwf : WF s) (hinv : InvActuals s)
    (hops : ∀ op ∈ ops, opNonneg op) :
    WF (runOps s ops) ∧ InvActuals (runOps s ops) := by
  induction ops generalizing s with
  | nil => exact ⟨hwf, hinv⟩
  | cons op rest ih =>
    have h1 := wf_applyOp s op hwf
    have h2 := invActuals_applyOp s op hwf hinv (hops op (List.mem_cons_self _ _))
    exact ih (applyOp s op) h1 h2 (fun o ho => hops o (List.mem_cons_of_mem _ ho))

theorem wfCash_runOps (s : DB) (ops : List Op) (opening : Nat → Int) (hwf : WF s)
    (hci : CashInv s opening) : CashInv (runOps s ops) opening := by
  induction ops generalizing s with
  | nil => exact hci
  | cons op rest ih =>
    exact ih (applyOp s op) (wf_applyOp s op hwf) (cashInv_applyOp s op opening hwf hci)

theorem getActualRows_nonneg (rows : List BudgetRow) (h : ∀ r ∈ rows, 0 ≤ r.actual)
    (pid g : Nat) : 0 ≤ getActualRows rows pid g := by
  unfold getActualRows
  cases hfind : rows.find? (fun r => r.planId = pid && r.groupId = g) with
  | none => simp
  | some r => simpa using h r (List.mem_of_find?_eq_some hfind)

theorem lookupPlanId_inv {plans : List MonthlyPlan} {mk : Option String} {pid : Nat}
    (h : lookupPlanId plans mk = some pid) :
    ∃ k q, mk = some k ∧ plans.find? (fun x => x.month = k) = some q ∧ pid = q.id := by
  cases mk with
  | none => simp [lookupPlanId] at h
  | some k =>
    cases hfind : plans.find? (fun x => x.month = k) with
    | none => simp [lookupPlanId, hfind] at h
    | some q =>
      refine ⟨k, q, rfl, hfind, ?_⟩
      simp only [lookupPlanId, hfind, Option.map_some', Option.some_inj] at h
      exact h.symm

/-- C1: For every (plan, group) budget row, after any sequence of
createExpense/updateExpense/deleteExpense operations whose submitted
amounts are non-negative (the input domain of the engine: amounts are
positive outflow magnitudes), starting from a well-formed state satisfying
the reconciliation invariant, the row's actual equals max(0, sum of the
amounts of all expenses whose persisted resolved plan-month equals that
plan's month key and whose groupId equals that group); the clamp to zero is
applied after every delta inside adjustPlanActuals. -/
theorem c1_budget_actual_invariant (s : DB) (ops : List Op) (hwf : WF s)
    (hinv : InvActuals s) (hops : ∀ op ∈ ops, opNonneg op) :
    ∀ p ∈ (runOps s ops).plans, ∀ g : Nat,
      getActual (runOps s ops) p.id g = max 0 (sumActual (runOps s ops) p.month g) := by
  obtain ⟨hwf', hinv'⟩ := wfInv_runOps s ops hwf hinv hops
  intro p hp g
  have h1 := hinv'.2 p hp g
  have h2 : 0 ≤ sumActual (runOps s ops) p.month g := sumActual_nonneg _ _ _ hinv'.1
  omega

/-- Witness for C1: the invariant evaluated after a concrete create. -/
theorem c1_budget_actual_invariant_witness :
    getActual (runOps exDB [Op.create exPay]) 1 7 =
      max 0 (sumActual (runOps exDB [Op.create exPay]) "2024-09" 7) := by
  have h := c1_budget_actual_invariant exDB [Op.create exPay] (by unfold WF; decide)
    ⟨by decide, fun q hq g => rfl⟩
    (by
      intro op hop
      simp only [List.mem_singleton] at hop
      subst hop
      exact (by decide : (0 : Int) ≤ 2550))
  exact h exPlan (by decide) 7

/-- C2: For every cash book, after any sequence of createExpense/
updateExpense/deleteExpense operations, balance equals its opening value
minus the signed sum of the amounts of all expenses currently attributed
to that cash book; the opening assignment is the ghost recording of the
value last set by saveCashBook or at creation, and the hypothesis states
that the starting state satisfies the relation for it. -/
theorem c2_cash_book_invariant (s : DB) (ops : List Op) (opening : Nat → Int)
    (hwf : WF s) (hci : CashInv s opening) : CashInv (runOps s ops) opening :=
  wfCash_runOps s ops opening hwf hci

/-- Witness for C2: the invariant evaluated after a concrete create. -/
theorem c2_cash_book_invariant_witness :
    CashInv (runOps exDB [Op.create exPay]) (fun _ => 10000) :=
  c2_cash_book_invariant exDB [Op.create exPay] (fun _ => 10000) (by unfold WF; decide)
    (by unfold CashInv owes expSum; decide)

/-- C7: updateExpense and deleteExpense called with an id matching no
stored expense fail with the not-found error, and the state after the
rolled-back operation is unchanged. -/
theorem c7_not_found_no_change (s : DB) (id : Nat) (p : UpdatePayload)
    (hmiss : ∀ e ∈ s.expenses, e.id ≠ id) :
    updateExpense s id p = Except.error "Expense not found" ∧
    deleteExpense s id = Except.error "Expense not found" ∧
    applyOp s (Op.update id p) = s ∧ applyOp s (Op.delete id) = s := by
  have hfind : s.expenses.find? (fun e => e.id = id) = none :=
    List.find?_eq_none.mpr (by simpa using hmiss)
  refine ⟨updateExpense_notFound s id p hfind, deleteExpense_notFound s id hfind, ?_, ?_⟩
  · simp only [applyOp, updateExpense_notFound s id p hfind]
  · simp only [applyOp, deleteExpense_notFound s id hfind]

/-- Witness for C7: a concrete unknown id against a concrete store. -/
theorem c7_not_found_no_change_witness :
    updateExpense exDBE 99 (selfPatch exExp 2550) = Except.error "Expense not found" ∧
    deleteExpense exDBE 99 = Except.error "Expense not found" ∧
    applyOp exDBE (Op.update 99 (selfPatch exExp 2550)) = exDBE ∧
    applyOp exDBE (Op.delete 99) = exDBE :=
  c7_not_found_no_change exDBE 99 (selfPatch exExp 2550) (by decide)

/-- C3: Creating an expense with createExpense and then deleting it with
deleteExpense returns every cash-book balance and every (plan, group)
actual bit-exactly to its pre-create value, and restores the expense
table; hypotheses: the id counter is fresh (a database guarantee), the
submitted amount is non-negative, and stored actuals are non-negative (as
adjustPlanActuals clamps them). -/
theorem c3_create_delete_roundtrip (s : DB) (p : CreatePayload)
    (hbound : ∀ e ∈ s.expenses, e.id < s.nextExpenseId)
    (ha : 0 ≤ p.amountCents) (hrows : ∀ r ∈ s.budgets, 0 ≤ r.actual) :
    ∃ s2, deleteExpense (createExpense s p).1 (createExpense s p).2.id =
        Except.ok (s2, (createExpense s p).2) ∧
      s2.cashBooks = s.cashBooks ∧
      s2.expenses = s.expenses ∧
      ∀ pid g : Nat, getActual s2 pid g = getActual s pid g := by
  rw [createExpense_eq]
  have hfresh : ∀ x ∈ s.expenses, x.id ≠ (createdExpense s p).id := fun x hx =>
    Nat.ne_of_lt (hbound x hx)
  have hfind : (createdState s p).expenses.find?
      (fun x => x.id = (createdExpense s p).id) = some (createdExpense s p) :=
    find?_id_fresh s.expenses (createdExpense s p) hfresh
  rw [deleteExpense_eq _ _ _ hfind]
  refine ⟨_, rfl, ?_, ?_, ?_⟩
  · show adjustedBooks (adjustedBooks s.cashBooks p.cashBookId p.amountCents)
        p.cashBookId (-p.amountCents) = s.cashBooks
    rw [adjustedBooks_comp, show p.amountCents + -p.amountCents = (0 : Int) by ring]
    rfl
  · show (s.expenses ++ [createdExpense s p]).filter
        (fun x => x.id != (createdExpense s p).id) = s.expenses
    exact filter_id_fresh s.expenses (createdExpense s p) hfresh
  · intro pid g
    show getActualRows (adjustedBudgets s.plans
        (adjustedBudgets s.plans s.budgets p.groupId p.amountCents
          (createdExpense s p).planMonthKey)
        p.groupId (-p.amountCents) (createdExpense s p).planMonthKey) pid g =
      getActualRows s.budgets pid g
    rw [getActualRows_adjusted, getActualRows_adjusted]
    by_cases h3 : p.amountCents = 0
    · rw [if_neg (fun hcon => hcon.2.2 (by rw [h3]; ring)),
        if_neg (fun hcon => hcon.2.2 h3)]
    · by_cases h1 : lookupPlanId s.plans (createdExpense s p).planMonthKey = some pid
      · by_cases h2 : g = p.groupId
        · rw [if_pos ⟨h1, h2, neg_ne_zero.mpr h3⟩, if_pos ⟨h1, h2, h3⟩]
          have hx := getActualRows_nonneg s.budgets hrows pid g
          omega
        · rw [if_neg (fun hcon => h2 hcon.2.1), if_neg (fun hcon => h2 hcon.2.1)]
      · rw [if_neg (fun hcon => h1 hcon.1), if_neg (fun hcon => h1 hcon.1)]

/-- Witness for C3: the round trip evaluated on a concrete store. -/
theorem c3_create_delete_roundtrip_witness :
    ∃ s2, deleteExpense (createExpense exDB exPay).1 (createExpense exDB exPay).2.id =
        Except.ok (s2, (createExpense exDB exPay).2) ∧
      s2.cashBooks = exDB.cashBooks ∧
      s2.expenses = exDB.expenses ∧
      ∀ pid g : Nat, getActual s2 pid g = getActual exDB pid g :=
  c3_create_delete_roundtrip exDB exPay (by decide) (by decide) (by decide)

/-- C5 counterexample: the claim that an income-typed record does not
decrease the cash book's balance is false; creating an income record of
5.00 against the 100.00 book leaves 95.00. -/
theorem c5_income_counterexample :
    (createExpense exDB exPayIncome).2.entryType = "income" ∧
    (createExpense exDB exPayIncome).1.cashBooks =
      [⟨1, "Main account", "bank", "", 9500, "INR", ""⟩] := by decide

/-- C5 amended: the cash-book delta of createExpense is applied
identically for every entry type; the resulting cash books do not depend
on the entry type, and the owning book's balance always decreases by the
submitted amount. -/
theorem c5_balance_ignores_entry_type (s : DB) (p : CreatePayload) (t : Option String) :
    (createExpense s { p with entryType := t }).1.cashBooks =
      (createExpense s p).1.cashBooks ∧
    ∀ b ∈ s.cashBooks, b.id = p.cashBookId →
      ∃ b' ∈ (createExpense s p).1.cashBooks, b'.id = b.id ∧
        b'.balance = b.balance - p.amountCents := by
  constructor
  · rw [createExpense_eq, createExpense_eq]
    rfl
  · intro b hb hid
    by_cases hz : p.amountCents = 0
    · refine ⟨b, ?_, rfl, by omega⟩
      rw [createExpense_eq]
      show b ∈ adjustedBooks s.cashBooks p.cashBookId p.amountCents
      unfold adjustedBooks
      rw [if_pos hz]
      exact hb
    · refine ⟨adjustOneBook p.cashBookId p.amountCents b, ?_, adjustOneBook_id _ _ _, ?_⟩
      · rw [createExpense_eq]
        show _ ∈ adjustedBooks s.cashBooks p.cashBookId p.amountCents
        unfold adjustedBooks
        rw [if_neg hz]
        exact List.mem_map.mpr ⟨b, hb, rfl⟩
      · rw [adjustOneBook_balance, if_pos hid]

/-- Witness for C5's amended theorem at a concrete payload. -/
theorem c5_balance_ignores_entry_type_witness :
    (createExpense exDB { exPayIncome with entryType := some "expense" }).1.cashBooks =
      (createExpense exDB exPayIncome).1.cashBooks ∧
    ∀ b ∈ exDB.cashBooks, b.id = exPayIncome.cashBookId →
      ∃ b' ∈ (createExpense exDB exPayIncome).1.cashBooks, b'.id = b.id ∧
        b'.balance = b.balance - exPayIncome.amountCents :=
  c5_balance_ignores_entry_type exDB exPayIncome (some "expense")

/-- C8 counterexample: createExpense accepts an empty label and a negative
amount, inserts the row and mutates the book, instead of failing with a
validation error and leaving state unchanged. -/
theorem c8_no_validation_counterexample :
    exPayInvalid.label = "" ∧ exPayInvalid.amountCents < 0 ∧
    (createExpense exDB exPayInvalid).1.expenses =
      [⟨10, "", -500, "expense", 7, 1, "2024-09-05", "", [], some "2024-09"⟩] ∧
    (createExpense exDB exPayInvalid).1.cashBooks ≠ exDB.cashBooks := by decide

/-- C8 amended: createExpense performs no input validation; for every
payload, including one with an empty label or a non-positive amount, the
expense row is inserted with exactly the submitted values and the
reconciliation deltas are applied; rejection of invalid input happens only
upstream of the service. -/
theorem c8_create_never_validates (s : DB) (p : CreatePayload) :
    (createExpense s p).1.expenses = s.expenses ++ [(createExpense s p).2] ∧
    (createExpense s p).2.label = p.label ∧
    (createExpense s p).2.amountCents = p.amountCents := by
  rw [createExpense_eq]
  exact ⟨rfl, rfl, rfl⟩

/-- C4: A plan hint naming an existing plan's month key wins
unconditionally: for every transaction date, including one outside that
plan's cycle window, findPlanForExpense selects that plan, and
createExpense persists that plan's month key as the expense's resolved
plan-month; the window scan runs only when no such hint is given. -/
theorem c4_plan_hint_wins (s : DB) (pay : CreatePayload) (h : String) (q : MonthlyPlan)
    (hq : q ∈ s.plans) (hmonth : q.month = h) (hndM : (s.plans.map (·.month)).Nodup)
    (hhint : pay.planMonth = some h) :
    findPlanForExpense (fetchPlans s) pay.date (some h) = ⟨some q, some h⟩ ∧
    (createExpense s pay).2.planMonthKey = some h := by
  have hqmem : q ∈ fetchPlans s := (mem_fetchPlans s q).mpr hq
  have hsome : ((fetchPlans s).find? (fun x => x.month = h)).isSome :=
    List.find?_isSome.mpr ⟨q, hqmem, by simp [hmonth]⟩
  obtain ⟨q', hq'⟩ := Option.isSome_iff_exists.mp hsome
  have hq'mem : q' ∈ s.plans := (mem_fetchPlans s q').mp (List.mem_of_find?_eq_some hq')
  have hq'month : q'.month = h := by simpa using List.find?_some hq'
  have hqq : q' = q := List.inj_on_of_nodup_map hndM hq'mem hq (by rw [hq'month, hmonth])
  subst hqq
  have heq := findPlan_hint_found pay.date hq'
  constructor
  · rw [heq, hq'month]
  · rw [createExpense_eq]
    show (findPlanForExpense (fetchPlans s) pay.date pay.planMonth).monthKey = some h
    rw [hhint, heq]
    simpa using hq'month

/-- Witness for C4: the hinted August plan is selected although the date
2024-09-05 lies outside its cycle window. -/
theorem c4_plan_hint_wins_witness :
    planWindowContains exPlan2 "2024-09-05" = false ∧
    findPlanForExpense (fetchPlans exDB2) "2024-09-05" (some "2024-08") =
      ⟨some exPlan2, some "2024-08"⟩ ∧
    (createExpense exDB2 exPayHint).2.planMonthKey = some "2024-08" := by
  have h := c4_plan_hint_wins exDB2 exPayHint "2024-08" exPlan2 (by decide) rfl (by decide) rfl
  exact ⟨by decide, h.1, h.2⟩

theorem charListLe_total : ∀ a b, charListLe a b = true ∨ charListLe b a = true := by
  intro a
  induction a with
  | nil => intro b; left; rfl
  | cons c cs ih =>
    intro b
    cases b with
    | nil => right; rfl
    | cons d ds =>
      by_cases h1 : c < d
      · left
        simp [charListLe, h1]
      · by_cases h2 : d < c
        · right
          simp [charListLe, h2, asymm h2]
        · rcases ih ds with h | h
          · left
            simp [charListLe, h1, h2, h]
          · right
            simp [charListLe, h1, h2, h]

theorem charListLe_trans :
    ∀ a b c, charListLe a b = true → charListLe b c = true → charListLe a c = true := by
  intro a
  induction a with
  | nil => intro b c _ _; rfl
  | cons x xs ih =>
    intro b c hab hbc
    cases b with
    | nil => simp [charListLe] at hab
    | cons y ys =>
      cases c with
      | nil => simp [charListLe] at hbc
      | cons z zs =>
        simp only [charListLe] at hab hbc ⊢
        by_cases hxy : x < y
        · by_cases hyz : y < z
          · have hxz : x < z := lt_trans hxy hyz
            simp [hxz]
          · by_cases hzy : z < y
            · simp [hyz, hzy] at hbc
            · have hyz' : y = z := le_antisymm (not_lt.mp hzy) (not_lt.mp hyz)
              subst hyz'
              simp [hxy]
        · by_cases hyx : y < x
          · simp [hxy, hyx] at hab
          · have hxy' : x = y := le_antisymm (not_lt.mp hyx) (not_lt.mp hxy)
            subst hxy'
            by_cases hyz : x < z
            · simp [hyz]
            · by_cases hzy : z < x
              · simp [hyz, hzy] at hbc
              · simp only [if_neg hyz, if_neg hzy] at hbc ⊢
                simp only [if_neg hxy, if_neg hxy] at hab
                exact ih ys zs hab hbc

/-- C10: With at least one plan stored and a hint matching no stored
plan's month key, the hint is silently ignored: resolution equals the
no-hint resolution, namely the fallback scan (first plan of the listing
whose window contains the date, else the first plan of the listing, the
listing being sorted by descending month key), and the persisted resolved
plan-month is the selected plan's month key, never the unmatched hint. -/
theorem c10_unmatched_hint_ignored (s : DB) (pay : CreatePayload) (h : String)
    (hne : s.plans ≠ []) (hmiss : ∀ q ∈ s.plans, q.month ≠ h)
    (hhint : pay.planMonth = some h) :
    findPlanForExpense (fetchPlans s) pay.date (some h) =
      findPlanForExpense (fetchPlans s) pay.date none ∧
    findPlanForExpense (fetchPlans s) pay.date (some h) =
      findPlanFallback (fetchPlans s) pay.date ∧
    List.Sorted planMonthGe (fetchPlans s) ∧
    (∃ q ∈ s.plans, q.month ≠ h ∧
      (createExpense s pay).2.planMonthKey = some q.month) ∧
    (createExpense s pay).2.planMonthKey ≠ some h := by
  haveI : IsTotal MonthlyPlan planMonthGe :=
    ⟨fun a b => (charListLe_total b.month.data a.month.data).elim Or.inl Or.inr⟩
  haveI : IsTrans MonthlyPlan planMonthGe :=
    ⟨fun _ _ _ h1 h2 => charListLe_trans _ _ _ h2 h1⟩
  have hfne : fetchPlans s ≠ [] := fun hcon => hne ((fetchPlans_nil s).mp hcon)
  have hfind : (fetchPlans s).find? (fun x => x.month = h) = none :=
    List.find?_eq_none.mpr (fun x hx => by
      simpa using hmiss x ((mem_fetchPlans s x).mp hx))
  have hA := findPlan_hint_missing pay.date hfne hfind
  have hC : findPlanForExpense (fetchPlans s) pay.date none =
      findPlanFallback (fetchPlans s) pay.date := by
    unfold findPlanForExpense
    rw [if_neg (by simpa [List.isEmpty_iff] using hfne)]
  obtain ⟨q, hqmem, hqeq⟩ :
      ∃ q ∈ fetchPlans s, findPlanForExpense (fetchPlans s) pay.date (some h) =
        ⟨some q, some q.month⟩ := by
    rcases findPlan_cases (fetchPlans s) pay.date (some h) with ⟨hnil, _⟩ | hexists
    · exact absurd hnil hfne
    · exact hexists
  have hq' : q ∈ s.plans := (mem_fetchPlans s q).mp hqmem
  have hkey : (createExpense s pay).2.planMonthKey = some q.month := by
    rw [createExpense_eq]
    show (findPlanForExpense (fetchPlans s) pay.date pay.planMonth).monthKey = some q.month
    rw [hhint, hqeq]
  refine ⟨hA, hA.trans hC, List.sorted_insertionSort _ _, ⟨q, hq', hmiss q hq', hkey⟩, ?_⟩
  rw [hkey]
  intro hcon
  exact hmiss q hq' (by simpa using hcon)

/-- Witness for C10: a hint of 2031-01 against the two stored plans is
ignored and the September plan owning the date is selected. -/
theorem c10_unmatched_hint_ignored_witness :
    findPlanForExpense (fetchPlans exDB2) "2024-09-05" (some "2031-01") =
      findPlanForExpense (fetchPlans exDB2) "2024-09-05" none ∧
    findPlanForExpense (fetchPlans exDB2) "2024-09-05" (some "2031-01") =
      findPlanFallback (fetchPlans exDB2) "2024-09-05" ∧
    List.Sorted planMonthGe (fetchPlans exDB2) ∧
    (∃ q ∈ exDB2.plans, q.month ≠ "2031-01" ∧
      (createExpense exDB2 exPayBadHint).2.planMonthKey = some q.month) ∧
    (createExpense exDB2 exPayBadHint).2.planMonthKey ≠ some "2031-01" :=
  c10_unmatched_hint_ignored exDB2 exPayBadHint "2031-01" (by decide) (by decide) rfl

theorem upsertPlanned_preserves (rows : List BudgetRow) (pid : Nat) (b : BudgetPayload)
    (r : BudgetRow) (hr : r ∈ rows) :
    ∃ r' ∈ upsertBudgetPlanned rows pid b, r'.planId = r.planId ∧ r'.groupId = r.groupId ∧
      r'.actual = r.actual := by
  unfold upsertBudgetPlanned
  by_cases hany : (rows.any fun x => x.planId = pid && x.groupId = b.groupId) = true
  · rw [if_pos hany]
    refine ⟨_, List.mem_map.mpr ⟨r, hr, rfl⟩, ?_, ?_, ?_⟩ <;>
      by_cases hk : (r.planId = pid && r.groupId = b.groupId) = true <;> simp [hk]
  · rw [if_neg hany]
    exact ⟨r, List.mem_append.mpr (Or.inl hr), rfl, rfl, rfl⟩

theorem foldl_upsertPlanned_preserves (bs : List BudgetPayload) (rows : List BudgetRow)
    (pid : Nat) (r : BudgetRow) (hr : r ∈ rows) :
    ∃ r' ∈ bs.foldl (fun acc b => upsertBudgetPlanned acc pid b) rows,
      r'.planId = r.planId ∧ r'.groupId = r.groupId ∧ r'.actual = r.actual := by
  induction bs generalizing rows r with
  | nil => exact ⟨r, hr, rfl, rfl, rfl⟩
  | cons b bs ih =>
    obtain ⟨r1, hr1, h1, h2, h3⟩ := upsertPlanned_preserves rows pid b r hr
    obtain ⟨r2, hr2, g1, g2, g3⟩ := ih _ r1 hr1
    exact ⟨r2, hr2, by rw [g1, h1], by rw [g2, h2], by rw [g3, h3]⟩

/-- C9 counterexample: the September plan's group-7 budget row holds
actual 2550 before the save, yet saving the plan with a payload listing no
budgets deletes the row, so the group no longer has a budget row carrying
its pre-save actual; preservation holds only for groups listed in the
payload. -/
theorem c9_save_deletes_unlisted_rows :
    getActual exDBE 1 7 = 2550 ∧
    (saveMonthlyPlan exDBE exPlanPayloadEmpty).toOption =
      some { exDBE with budgets := [] } := by decide

theorem savePlan_core (bs : List BudgetPayload) (rows : List BudgetRow) (pid : Nat)
    (r : BudgetRow) (hr : r ∈ rows) (hrpid : r.planId = pid)
    (hg : r.groupId ∈ bs.map (·.groupId)) :
    ∃ r' ∈ (bs.foldl (fun acc b => upsertBudgetPlanned acc pid b) rows).filter
        (fun x => x.planId != pid || (bs.map (·.groupId)).contains x.groupId),
      r'.planId = pid ∧ r'.groupId = r.groupId ∧ r'.actual = r.actual := by
  obtain ⟨r', hr'mem, h1, h2, h3⟩ := foldl_upsertPlanned_preserves bs rows pid r hr
  refine ⟨r', List.mem_filter.mpr ⟨hr'mem, ?_⟩, by rw [h1, hrpid], h2, by rw [h3]⟩
  have hx : ∃ a ∈ bs, a.groupId = r'.groupId := by
    obtain ⟨a, ha, hga⟩ := List.mem_map.mp hg
    exact ⟨a, ha, by rw [hga, h2]⟩
  simp [hx]

/-- C9 amended: saveMonthlyPlan preserves the pre-save actual of every
(plan, group) budget row whose group appears among the payload's budget
entries; rows of that plan for groups omitted from the payload are deleted
by the save, so the claimed preservation holds only for listed groups. -/
theorem c9_save_preserves_listed_actuals (s : DB) (pp : PlanPayload) (pid : Nat)
    (r : BudgetRow) (hid : pp.id = some pid) (hmonth : ¬ pp.month = "")
    (hr : r ∈ s.budgets) (hrpid : r.planId = pid)
    (hg : r.groupId ∈ pp.budgets.map (·.groupId)) :
    ∃ s', saveMonthlyPlan s pp = Except.ok s' ∧
      ∃ r' ∈ s'.budgets, r'.planId = pid ∧ r'.groupId = r.groupId ∧ r'.actual = r.actual := by
  unfold saveMonthlyPlan
  rw [if_neg hmonth, hid]
  refine ⟨_, rfl, ?_⟩
  refine savePlan_core _ s.budgets pid r hr hrpid ?_
  rw [List.map_map]
  simpa using hg

/-- Witness for C9's amended theorem: re-listing group 7 preserves its
actual of 2550 while replacing its planned value. -/
theorem c9_save_preserves_listed_actuals_witness :
    ∃ s', saveMonthlyPlan exDBE exPlanPayloadKeep = Except.ok s' ∧
      ∃ r' ∈ s'.budgets, r'.planId = 1 ∧ r'.groupId = 7 ∧ r'.actual = 2550 := by
  have h := c9_save_preserves_listed_actuals exDBE exPlanPayloadKeep 1 ⟨1, 7, 0, 2550⟩ rfl
    (by decide) (by decide) rfl (by decide)
  exact h

/-- C6 counterexample: the claim fails on an engine-reachable state with a
stale attribution.  createExpense against a plan-less store persists its
unmatched hint 2025-03 as the expense's plan month key; saveMonthlyPlan then
creates a September 2024 plan; updateExpense re-submitting the expense's own
unchanged fields re-resolves the stale hint onto the September plan: the
reversal against 2025-03 is a no-op, the reapply creates a budget row with
actual 2550, and the persisted plan month key changes to 2024-09, so budget
actuals do not stay unchanged (the cash book alone returns to its prior
balance). -/
theorem c6_self_update_counterexample :
    exDB0.plans = [] ∧
    (createExpense exDB0 exPayStale).2 = exStaleExp ∧
    exStaleExp.planMonthKey = some "2025-03" ∧
    (saveMonthlyPlan (createExpense exDB0 exPayStale).1 exPlanPayloadStale).toOption =
      some exStaleDB ∧
    exStaleDB.budgets = [] ∧
    exStaleDB.expenses = [exStaleExp] ∧
    (updateExpense exStaleDB exStaleExp.id
        (selfPatch exStaleExp exStaleExp.amountCents)).toOption.map
        (fun r => (r.1.budgets, r.1.cashBooks, r.2.planMonthKey)) =
      some ([⟨3, 7, 0, 2550⟩], exStaleDB.cashBooks, some "2024-09") := by decide

/-- C6 amended: on a state whose stored expenses are all attributed to
stored plans (no stale plan month key, the situation the counterexample
exploits), updating an expense with a patch that re-submits its own stored
fields, possibly with a new amount, produces the same cash books and the
same (plan, group) actuals as applying the single net delta of
newAmount - previousAmount to the expense's own cash book and (plan,
group) pair; with the amount unchanged the update therefore leaves the
expense row, every cash-book balance and every budget actual unchanged.
Hypotheses: well-formed state, the reconciliation invariant, attribution of
every stored expense to a stored plan whenever plans exist, and a
non-negative new amount. -/
theorem c6_self_update_net_effect (s : DB) (e : Expense) (a' : Int)
    (hwf : WF s) (hinv : InvActuals s)
    (hattr : s.plans ≠ [] → ∀ x ∈ s.expenses, ∃ q ∈ s.plans, x.planMonthKey = some q.month)
    (hmem : e ∈ s.expenses) (ha' : 0 ≤ a') :
    ∃ s' e', updateExpense s e.id (selfPatch e a') = Except.ok (s', e') ∧
      s'.cashBooks = adjustedBooks s.cashBooks e.cashBookId (a' - e.amountCents) ∧
      (∀ pid g : Nat, getActual s' pid g =
        getActualRows (adjustedBudgets s.plans s.budgets e.groupId (a' - e.amountCents)
          e.planMonthKey) pid g) ∧
      (a' = e.amountCents → e' = e ∧ s'.expenses = s.expenses ∧
        s'.cashBooks = s.cashBooks ∧ ∀ pid g : Nat, getActual s' pid g = getActual s pid g) := by
  obtain ⟨hndE, hbound, hndP, hndM⟩ := hwf
  obtain ⟨hamts, hact⟩ := hinv
  have ha0 : 0 ≤ e.amountCents := hamts e hmem
  have hfind : s.expenses.find? (fun x => x.id = e.id) = some e :=
    find?_id_of_nodup s.expenses e hmem hndE
  have hkey : (mergedExpense s (selfPatch e a') e).planMonthKey = e.planMonthKey := by
    show (findPlanForExpense (fetchPlans s) (updateDate (selfPatch e a') e)
        (updateHint (selfPatch e a') e)).monthKey = e.planMonthKey
    have hhint : updateHint (selfPatch e a') e = e.planMonthKey := by
      cases hpk : e.planMonthKey <;> simp [updateHint, selfPatch, hpk]
    rw [show updateDate (selfPatch e a') e = e.txnDate from rfl, hhint]
    by_cases hpl : s.plans = []
    · rw [(fetchPlans_nil s).mpr hpl, findPlan_empty]
    · cases hpk : e.planMonthKey with
      | none =>
        obtain ⟨q, hq, hqk⟩ := hattr hpl e hmem
        rw [hpk] at hqk
        exact absurd hqk (by simp)
      | some k =>
        obtain ⟨q, hq, hqk⟩ := hattr hpl e hmem
        rw [hpk] at hqk
        have hkq : q.month = k := by simpa using hqk.symm
        have hsome : ((fetchPlans s).find? (fun x => x.month = k)).isSome :=
          List.find?_isSome.mpr ⟨q, (mem_fetchPlans s q).mpr hq, by simp [hkq]⟩
        obtain ⟨pf, hpf⟩ := Option.isSome_iff_exists.mp hsome
        have hpfm : pf.month = k := by simpa using List.find?_some hpf
        rw [findPlan_hint_found e.txnDate hpf]
        simpa using hpfm
  have hbooks : (updatedState s e.id (selfPatch e a') e).cashBooks =
      adjustedBooks s.cashBooks e.cashBookId (a' - e.amountCents) := by
    show adjustedBooks (adjustedBooks s.cashBooks e.cashBookId (-e.amountCents))
        e.cashBookId a' = _
    rw [adjustedBooks_comp, show -e.amountCents + a' = a' - e.amountCents by ring]
  have hbud : ∀ pid g : Nat, getActual (updatedState s e.id (selfPatch e a') e) pid g =
      getActualRows (adjustedBudgets s.plans s.budgets e.groupId (a' - e.amountCents)
        e.planMonthKey) pid g := by
    intro pid g
    show getActualRows (adjustedBudgets s.plans
        (adjustedBudgets s.plans s.budgets e.groupId (-e.amountCents) e.planMonthKey)
        e.groupId a' (mergedExpense s (selfPatch e a') e).planMonthKey) pid g = _
    rw [hkey, getActualRows_adjusted, getActualRows_adjusted, getActualRows_adjusted]
    by_cases hL : lookupPlanId s.plans e.planMonthKey = some pid
    · by_cases hG : g = e.groupId
      · obtain ⟨k, q, hk1, hk2, hk3⟩ := lookupPlanId_inv hL
        have hqmem : q ∈ s.plans := List.mem_of_find?_eq_some hk2
        have hqm : q.month = k := by simpa using List.find?_some hk2
        have hsum : getActualRows s.budgets pid g = sumActual s q.month g := by
          rw [hk3]
          exact hact q hqmem g
        have hc : expenseContrib q.month g e = e.amountCents :=
          expenseContrib_eq _ _ _ (by rw [hk1, hqm]) hG.symm
        have hle : e.amountCents ≤ getActualRows s.budgets pid g := by
          rw [hsum, ← hc]
          exact expenseContrib_le_sumActual s q.month g e hmem hamts
        subst hG
        simp only [hL, eq_self_iff_true, true_and]
        split_ifs <;> omega
      · rw [if_neg (fun hcon => hG hcon.2.1), if_neg (fun hcon => hG hcon.2.1),
          if_neg (fun hcon => hG hcon.2.1)]
    · rw [if_neg (fun hcon => hL hcon.1), if_neg (fun hcon => hL hcon.1),
        if_neg (fun hcon => hL hcon.1)]
  have hident : a' = e.amountCents → mergedExpense s (selfPatch e a') e = e := by
    intro hid
    have hstep : mergedExpense s (selfPatch e a') e =
        { e with
            amountCents := a'
            planMonthKey := (mergedExpense s (selfPatch e a') e).planMonthKey } := rfl
    rw [hstep, hkey, hid]
  refine ⟨_, _, updateExpense_eq s e.id (selfPatch e a') e hfind, hbooks, hbud, ?_⟩
  intro hid
  have hme := hident hid
  refine ⟨hme, ?_, ?_, ?_⟩
  · show s.expenses.map (fun x => if x.id = e.id then mergedExpense s (selfPatch e a') e else x)
        = s.expenses
    refine Eq.trans (List.map_congr_left ?_) (List.map_id' _)
    intro x hx
    by_cases hxid : x.id = e.id
    · have hxe : x = e := List.inj_on_of_nodup_map hndE hx hmem hxid
      rw [if_pos hxid, hme, hxe]
    · rw [if_neg hxid]
  · rw [hbooks, hid, show e.amountCents - e.amountCents = (0 : Int) by ring]
    rfl
  · intro pid g
    rw [hbud pid g, hid, show e.amountCents - e.amountCents = (0 : Int) by ring]
    show getActualRows (adjustedBudgets s.plans s.budgets e.groupId 0 e.planMonthKey) pid g = _
    unfold adjustedBudgets
    rw [if_pos rfl]
    rfl

theorem exDBE_invActuals : InvActuals exDBE := by
  constructor
  · decide
  · intro q hq g
    have hq' : q = exPlan := by simpa [exDBE] using hq
    subst hq'
    show getActualRows exDBE.budgets 1 g = sumActual exDBE "2024-09" g
    by_cases hg : g = 7
    · subst hg
      decide
    · have h7 : ¬ (7 = g) := fun hcon => hg hcon.symm
      simp [getActualRows, exDBE, List.find?, sumActual, expSum, expenseContrib, exExp, h7]

/-- Witness for C6's amended theorem: re-submitting the stored expense with
its own amount leaves the concrete reconciled store unchanged. -/
theorem c6_self_update_net_effect_witness :
    ∃ s' e', updateExpense exDBE exExp.id (selfPatch exExp 2550) = Except.ok (s', e') ∧
      s'.cashBooks = adjustedBooks exDBE.cashBooks exExp.cashBookId (2550 - exExp.amountCents) ∧
      (∀ pid g : Nat, getActual s' pid g =
        getActualRows (adjustedBudgets exDBE.plans exDBE.budgets exExp.groupId
          (2550 - exExp.amountCents) exExp.planMonthKey) pid g) ∧
      (2550 = exExp.amountCents → e' = exExp ∧ s'.expenses = exDBE.expenses ∧
        s'.cashBooks = exDBE.cashBooks ∧
        ∀ pid g : Nat, getActual s' pid g = getActual exDBE pid g) :=
  c6_self_update_net_effect exDBE exExp 2550 (by unfold WF; decide) exDBE_invActuals
    (fun _ => by decide) (by decide) (by decide)
